import Mathlib

/-!
Verification development for the hk-npm grounded-answer pipeline.

The TypeScript sources are shallowly embedded as executable Lean
definitions:

* `src/src/ingestion/code-parser.ts` — symbol extraction from a syntax
  tree, relevance filtering and scoring (`parseFunction`, `visit`,
  `filterRelevantSymbols`, `calculateRelevanceScore`,
  `createSymbolSearchText`).
* `src/shared/src/answer.ts` — context retrieval
  (`fetchSymbolContext`, `findRelevantCode`) and the grounded answer
  generator (`generateAnswer`, `isRetryableGeminiError`).
* the ingestion fetcher (`fetchPackage`, `extractExportsSimple`,
  `extractCodeBlocks`, `prepareReadmeContent`) and
  `src/src/ingestion/indexer.ts` (`indexPackage`, `indexPackages`).
* the source-code fetcher (`fetchFromUnpkg`, `fetchSourceCode`).

External collaborators (the TypeScript compiler front end, the search
index, the package registry and CDN, the generative model provider) are
modelled as explicit oracle inputs: structures or functions supplying
the data those services would return.  Everything the repository itself
computes is translated directly from the source.

JavaScript strings are modelled as Lean `String`s; all string
operations used by the embedding are implemented over the underlying
character list so that they evaluate inside the kernel.  JavaScript
string indices are UTF-16 code-unit offsets; all concrete inputs in
this file are ASCII, where code units and characters coincide.
-/

/-! ### String helpers (JS string primitives over character lists) -/

/-- Character list of a string. -/
def chars (s : String) : List Char := s.data

/-- Build a string from a character list. -/
def ofChars (cs : List Char) : String := String.mk cs

/-- Does `p` occur as a leading segment of `t`?  (Helper for substring
search; both arguments are character lists.) -/
def leadMatch : List Char → List Char → Bool
  | [], _ => true
  | _ :: _, [] => false
  | a :: as, b :: bs => a == b && leadMatch as bs

/-- Does `p` occur contiguously anywhere inside `t`? -/
def subMatch (p : List Char) : List Char → Bool
  | [] => leadMatch p []
  | c :: rest => leadMatch p (c :: rest) || subMatch p rest

/-- JavaScript `s.includes(p)`. -/
def strIncludes (s p : String) : Bool := subMatch (chars p) (chars s)

/-- JavaScript `s.toLowerCase()` (ASCII-accurate). -/
def strLower (s : String) : String := ofChars ((chars s).map Char.toLower)

/-- JavaScript `s.startsWith(p)`. -/
def strStarts (s p : String) : Bool := leadMatch (chars p) (chars s)

/-- JavaScript `s.slice(a, b)` for `0 ≤ a ≤ b` (code-unit indices). -/
def jsSlice (s : String) (a b : Nat) : String :=
  ofChars (((chars s).drop a).take (b - a))

/-- JavaScript `s.slice(0, n)`. -/
def jsSlice0 (s : String) (n : Nat) : String := ofChars ((chars s).take n)

/-- JavaScript `s.trim()`: strip leading and trailing whitespace. -/
def jsTrim (s : String) : String :=
  ofChars ((((chars s).dropWhile Char.isWhitespace).reverse.dropWhile
    Char.isWhitespace).reverse)

/-- JavaScript `parts.join(sep)`. -/
def jsJoin (sep : String) (parts : List String) : String :=
  match parts with
  | [] => ""
  | p :: ps => ps.foldl (fun acc q => acc ++ sep ++ q) p

/-- Split a character list at every occurrence of the character `c`
(JavaScript `s.split(c)` for a one-character separator). -/
def splitOnChar (c : Char) : List Char → List (List Char)
  | [] => [[]]
  | d :: rest =>
    match splitOnChar c rest with
    | [] => [[]]
    | seg :: segs => if d == c then [] :: seg :: segs else (d :: seg) :: segs

/-- JavaScript `s.split("\n")`. -/
def splitLines (s : String) : List String :=
  (splitOnChar '\n' (chars s)).map ofChars

/-! ### Parsed symbols (`code-parser.ts`)

`ParsedSymbol.kind` is one of the strings
`function | class | interface | type | const | variable`, kept as a
`String` because it is stored verbatim in the index document. -/

/-- A symbol extracted from one source file (`ParsedSymbol` in
`code-parser.ts`). -/
structure ParsedSymbol where
  kind : String
  name : String
  signature : String
  implementation : String
  jsdoc : Option String
  startLine : Nat
  endLine : Nat
  filePath : String
  isExported : Bool
  parameters : Option (List String)
  returnType : Option String
  deriving Repr, DecidableEq

/-- Quality filter from `filterRelevantSymbols`: drop trivial bodies
(under 50 characters), oversized bodies (over 10000 characters) and
test/spec/mock/fixture paths. -/
def filterRelevantSymbols (symbols : List ParsedSymbol) : List ParsedSymbol :=
  symbols.filter fun symbol =>
    if symbol.implementation.length < 50 then false
    else if symbol.implementation.length > 10000 then false
    else if strIncludes symbol.filePath ".test." ||
        strIncludes symbol.filePath ".spec." ||
        strIncludes symbol.filePath "__tests__" then false
    else if strIncludes symbol.filePath "mock" ||
        strIncludes symbol.filePath "fixture" ||
        strIncludes symbol.filePath "__mocks__" then false
    else true

/-- Keyword list used by the relevance scorer. -/
def importantKeywords : List String :=
  ["fetch", "request", "http", "api", "execute", "call"]

/-- Relevance score from `calculateRelevanceScore`.  The TypeScript
value is a JavaScript number accumulated from non-negative bonuses; it
is modelled as `Int` so that non-negativity is a statement rather than
a typing artifact. -/
def calculateRelevanceScore (symbol : ParsedSymbol) : Int :=
  (if symbol.isExported then 10 else 0) +
  (if (match symbol.jsdoc with
       | some j => decide (j.length > 20)
       | none => false) then 5 else 0) +
  (if !(strStarts symbol.name "_") then 3 else 0) +
  (if symbol.implementation.length > 100 &&
      symbol.implementation.length < 2000 then 2 else 0) +
  (if strIncludes symbol.implementation "async" ||
      strIncludes symbol.implementation "await" then 2 else 0) +
  (if strIncludes symbol.implementation "try" ||
      strIncludes symbol.implementation "catch" ||
      strIncludes symbol.implementation "throw" then 1 else 0) +
  (if importantKeywords.any
      (fun keyword => strIncludes (strLower symbol.implementation) keyword)
    then 2 else 0)

/-- Searchable text per symbol (`createSymbolSearchText`). -/
def createSymbolSearchText (symbol : ParsedSymbol) : String :=
  let parts : List String :=
    (match symbol.jsdoc with | some j => [j] | none => []) ++
    [symbol.signature, symbol.implementation,
      "File: " ++ symbol.filePath, "Type: " ++ symbol.kind] ++
    (match symbol.parameters with
     | some ps => if ps.length > 0 then ["Parameters: " ++ jsJoin ", " ps] else []
     | none => []) ++
    (match symbol.returnType with
     | some rt => if rt = "" then [] else ["Returns: " ++ rt]
     | none => [])
  jsJoin "\n\n" parts

/-! ### Syntax-tree model

The TypeScript compiler front end (`ts.createSourceFile`) is an
external dependency; its output is modelled as an explicit tree.  Leaf
texts (identifier, parameter and type-annotation texts) are the values
`getText()` would return for those sub-nodes; the declaration node
itself carries its source positions (`getFullStart`, `getStart`,
`getEnd`), from which the repository code computes the implementation
text, line numbers and doc comment. -/

/-- Source positions of a declaration node. -/
structure Span where
  fullStart : Nat
  startPos : Nat
  endPos : Nat
  deriving Repr, DecidableEq

/-- Modifier kinds distinguished by `isExported`. -/
inductive TsModifier where
  | exportKeyword
  | defaultKeyword
  | otherModifier
  deriving Repr, DecidableEq

/-- A function/method parameter node: its identifier text, optional
type-annotation text, and the full parameter text (`p.getText()`). -/
structure TsParamNode where
  nameText : String
  typeText : Option String
  text : String
  deriving Repr, DecidableEq

/-- One declarator inside a variable statement. -/
structure TsVarDecl where
  nameText : String
  typeText : Option String
  deriving Repr, DecidableEq

/-- Kind-specific data of a node.  `otherNode` covers every node kind
the visitor does not extract a symbol from (blocks, statements,
expressions, identifiers, ...). -/
inductive TsNodeInfo where
  | functionDecl (name : Option String) (params : List TsParamNode)
      (retType : Option String) (modifiers : Option (List TsModifier))
      (span : Span)
  | classDecl (name : Option String) (heritageTexts : Option (List String))
      (modifiers : Option (List TsModifier)) (span : Span)
  | interfaceDecl (name : String) (modifiers : Option (List TsModifier))
      (span : Span)
  | typeAliasDecl (name : String) (modifiers : Option (List TsModifier))
      (span : Span)
  | variableStmt (decls : List TsVarDecl) (isConst : Bool)
      (modifiers : Option (List TsModifier)) (span : Span)
  | otherNode
  deriving Repr

/-- A syntax-tree node with its children (`ts.forEachChild` order). -/
inductive TsNode where
  | mk (info : TsNodeInfo) (children : List TsNode)

/-- Check for an export or default modifier (`isExported` in
`code-parser.ts`; a node without a modifier list is not exported). -/
def hasExportModifier (modifiers : Option (List TsModifier)) : Bool :=
  match modifiers with
  | none => false
  | some ms => ms.any fun m =>
      match m with
      | TsModifier.exportKeyword => true
      | TsModifier.defaultKeyword => true
      | TsModifier.otherModifier => false

/-- Is every character JavaScript whitespace? -/
def allWs (cs : List Char) : Bool := cs.all Char.isWhitespace

/-- Inner scan of the doc-comment regex: the input is positioned just
after an opening delimiter; find the lazily-nearest closing delimiter
followed only by whitespace, returning the matched characters through
the close.  Mirrors the backtracking of the anchored lazy pattern in
`extractJSDoc`. -/
def closeScan : List Char → Option (List Char)
  | [] => none
  | '*' :: '/' :: rest =>
    if allWs rest then some ['*', '/']
    else
      match closeScan ('/' :: rest) with
      | some p => some ('*' :: p)
      | none => none
  | c :: rest => (closeScan rest).map (c :: ·)

/-- Outer scan of the doc-comment regex: find the leftmost opening
delimiter from which `closeScan` completes a match anchored at the end
of the text. -/
def openScan : List Char → Option (List Char)
  | '/' :: '*' :: '*' :: rest =>
    (match closeScan rest with
     | some p => some ('/' :: '*' :: '*' :: p)
     | none => openScan ('*' :: '*' :: rest))
  | _ :: rest => openScan rest
  | [] => none

/-- Doc-comment recovery (`extractJSDoc`): look back up to 500
characters before the node and match a doc-comment block anchored at
the end of that window (modulo trailing whitespace); the match is
trimmed. -/
def extractJSDoc (fullText : String) (nodeFullStart : Nat) : Option String :=
  let textBefore := jsSlice fullText (nodeFullStart - 500) nodeFullStart
  (openScan (chars textBefore)).map fun m => jsTrim (ofChars m)

/-- Line of a position: one plus the number of newlines before it
(`getLineAndCharacterOfPosition(pos).line + 1`). -/
def lineOfPos (fullText : String) (pos : Nat) : Nat :=
  (((chars fullText).take pos).filter (fun c => c == '\n')).length + 1

/-- Start and end lines of a node (`getLineNumbers`). -/
def getLineNumbers (fullText : String) (span : Span) : Nat × Nat :=
  (lineOfPos fullText span.startPos, lineOfPos fullText span.endPos)

/-- The verbatim source text of a node (`node.getText()`). -/
def nodeText (fullText : String) (span : Span) : String :=
  jsSlice fullText span.startPos span.endPos

/-- Parse a function declaration (`parseFunction`); anonymous
declarations yield nothing. -/
def parseFunction (fullText filePath : String) (name : Option String)
    (params : List TsParamNode) (retType : Option String)
    (modifiers : Option (List TsModifier)) (span : Span) :
    Option ParsedSymbol :=
  match name with
  | none => none
  | some nm =>
    let implementation := nodeText fullText span
    let lines := getLineNumbers fullText span
    let jsdoc := extractJSDoc fullText span.fullStart
    let parameters := params.map fun p =>
      p.nameText ++ ": " ++ (p.typeText.getD "any")
    let returnType := retType.getD "any"
    let paramsText := jsJoin ", " (params.map (fun p => p.text))
    let signature := "function " ++ nm ++ "(" ++ paramsText ++ ")" ++
      (match retType with
       | some t => ": " ++ t
       | none => "")
    some { kind := "function", name := nm, signature, implementation, jsdoc,
           startLine := lines.1, endLine := lines.2, filePath,
           isExported := hasExportModifier modifiers,
           parameters := some parameters, returnType := some returnType }

/-- Parse a class declaration (`parseClass`). -/
def parseClass (fullText filePath : String) (name : Option String)
    (heritageTexts : Option (List String))
    (modifiers : Option (List TsModifier)) (span : Span) :
    Option ParsedSymbol :=
  match name with
  | none => none
  | some nm =>
    let implementation := nodeText fullText span
    let lines := getLineNumbers fullText span
    let jsdoc := extractJSDoc fullText span.fullStart
    let heritage := heritageTexts.map (jsJoin " ")
    let signature := "class " ++ nm ++
      (match heritage with
       | some h => if h = "" then "" else " " ++ h
       | none => "")
    some { kind := "class", name := nm, signature, implementation, jsdoc,
           startLine := lines.1, endLine := lines.2, filePath,
           isExported := hasExportModifier modifiers,
           parameters := none, returnType := none }

/-- Parse an interface declaration (`parseInterface`). -/
def parseInterface (fullText filePath : String) (name : String)
    (modifiers : Option (List TsModifier)) (span : Span) :
    Option ParsedSymbol :=
  let implementation := nodeText fullText span
  let lines := getLineNumbers fullText span
  let jsdoc := extractJSDoc fullText span.fullStart
  some { kind := "interface", name, signature := "interface " ++ name,
         implementation, jsdoc, startLine := lines.1, endLine := lines.2,
         filePath, isExported := hasExportModifier modifiers,
         parameters := none, returnType := none }

/-- Parse a type alias (`parseTypeAlias`). -/
def parseTypeAlias (fullText filePath : String) (name : String)
    (modifiers : Option (List TsModifier)) (span : Span) :
    Option ParsedSymbol :=
  let implementation := nodeText fullText span
  let lines := getLineNumbers fullText span
  let jsdoc := extractJSDoc fullText span.fullStart
  some { kind := "type", name, signature := "type " ++ name,
         implementation, jsdoc, startLine := lines.1, endLine := lines.2,
         filePath, isExported := hasExportModifier modifiers,
         parameters := none, returnType := none }

/-- Parse a variable statement (`parseVariable`): one symbol per
declarator, all sharing the statement text and line range. -/
def parseVariable (fullText filePath : String) (decls : List TsVarDecl)
    (isConst : Bool) (modifiers : Option (List TsModifier)) (span : Span) :
    List ParsedSymbol :=
  decls.map fun declaration =>
    let implementation := nodeText fullText span
    let lines := getLineNumbers fullText span
    let jsdoc := extractJSDoc fullText span.fullStart
    let kind := if isConst then "const" else "variable"
    let signature := kind ++ " " ++ declaration.nameText ++
      (match declaration.typeText with
       | some t => ": " ++ t
       | none => "")
    { kind, name := declaration.nameText, signature, implementation, jsdoc,
      startLine := lines.1, endLine := lines.2, filePath,
      isExported := hasExportModifier modifiers,
      parameters := none, returnType := none }

/-- Symbols contributed by one node itself (the kind dispatch at the
top of `visit`). -/
def symbolsOfInfo (fullText filePath : String) : TsNodeInfo → List ParsedSymbol
  | TsNodeInfo.functionDecl name params retType modifiers span =>
    (parseFunction fullText filePath name params retType modifiers span).toList
  | TsNodeInfo.classDecl name heritageTexts modifiers span =>
    (parseClass fullText filePath name heritageTexts modifiers span).toList
  | TsNodeInfo.interfaceDecl name modifiers span =>
    (parseInterface fullText filePath name modifiers span).toList
  | TsNodeInfo.typeAliasDecl name modifiers span =>
    (parseTypeAlias fullText filePath name modifiers span).toList
  | TsNodeInfo.variableStmt decls isConst modifiers span =>
    parseVariable fullText filePath decls isConst modifiers span
  | TsNodeInfo.otherNode => []

mutual

/-- Tree walk of `visit`: a node contributes its own symbols, then its
children are traversed in order. -/
def visitNode (fullText filePath : String) : TsNode → List ParsedSymbol
  | TsNode.mk info children =>
    symbolsOfInfo fullText filePath info ++ visitChildren fullText filePath children

/-- Traversal of a child list (the `ts.forEachChild` loop). -/
def visitChildren (fullText filePath : String) : List TsNode → List ParsedSymbol
  | [] => []
  | c :: cs =>
    visitNode fullText filePath c ++ visitChildren fullText filePath cs

end

/-- Result of parsing one file (`ParseResult`). -/
structure ParseResult where
  symbols : List ParsedSymbol
  totalSymbols : Nat
  filePath : String
  deriving Repr

/-- Parse one file (`parseSourceFile`): the external front end
(`astOf`, standing for `ts.createSourceFile`) produces the tree for
the file path and content; the visitor extracts the symbols. -/
def parseSourceFile (astOf : String → String → TsNode)
    (filePath content : String) : ParseResult :=
  let sourceFile := astOf filePath content
  let symbols := visitNode content filePath sourceFile
  { symbols, totalSymbols := symbols.length, filePath }

/-- Parse several files (`parseSourceFiles`).  A front-end failure on
one file is caught and yields zero symbols for that file; the oracle
front end is total, so every file contributes its visitor output. -/
def parseSourceFiles (astOf : String → String → TsNode)
    (files : List (String × String)) : List ParsedSymbol :=
  (files.map fun file => (parseSourceFile astOf file.1 file.2).symbols).flatten

/-! ### Answer service data model (`answer.ts`) -/

/-- A text-bearing field of an index document, of unknown dynamic
shape (`readme_content`, `code_examples`).  Mirrors the cases
`extractTextField` distinguishes. -/
inductive TextField where
  | nullVal
  | str (s : String)
  | arr (xs : List TextField)
  | objText (t : String)
  | objChunks (cs : List (Option String))
  | otherVal
  deriving Repr

mutual

/-- Text extraction from a dynamic field (`extractTextField`).  A
string element of an array is returned as is, which coincides with
recursing into it. -/
def extractTextField : TextField → String
  | TextField.nullVal => ""
  | TextField.str s => s
  | TextField.arr xs => jsJoin "\n" (extractTextFieldList xs)
  | TextField.objText t => t
  | TextField.objChunks cs => jsJoin "\n" (cs.map fun chunk => chunk.getD "")
  | TextField.otherVal => ""

/-- Helper mapping `extractTextField` over an array field. -/
def extractTextFieldList : List TextField → List String
  | [] => []
  | x :: xs => extractTextField x :: extractTextFieldList xs

end

/-- A legacy export entry of an index document. -/
structure ExportEntry where
  kind : String
  name : String
  signature : Option String
  jsdoc : Option String
  deriving Repr, DecidableEq

/-- The `_source` of a symbol as stored in the index (one element of
the nested `symbols` array, or of an inner hit). -/
structure RawEsSymbol where
  name : String
  kind : String
  file_path : String
  implementation : Option String
  is_exported : Bool
  relevance_score : Option Int
  jsdoc : Option String
  signature : Option String
  deriving Repr, DecidableEq

/-- An index document (`ElasticDoc`), including the nested symbols a
get-by-id returns.  A search response omits `symbols` from `_source`;
for such hits the field is empty. -/
structure ElasticDoc where
  name : String
  version : String
  description : Option String
  readme_content : TextField
  code_examples : TextField
  exports : Option (List ExportEntry)
  symbols : List RawEsSymbol
  deriving Repr

/-- The top search hit: document id, `_source`, and the nested inner
hits (already projected to their `_source`). -/
structure EsHit where
  id : String
  source : ElasticDoc
  innerSymbols : List RawEsSymbol
  deriving Repr

/-- Oracle for one retrieval interaction with the search index: the
outcome of the search request (`Except.error` for a thrown query
failure, then the optional top hit) and the outcome of the follow-up
get-by-id used by the fallback path. -/
structure EsEnv where
  searchResult : Except String (Option EsHit)
  getResult : Except String ElasticDoc

/-- A query-scoped symbol match (`SymbolMatch`). -/
structure SymbolMatch where
  name : String
  kind : String
  file_path : String
  snippet : String
  is_exported : Bool
  relevance_score : Option Int
  implementation : Option String
  jsdoc : Option String
  signature : Option String
  deriving Repr, DecidableEq

/-- Map a stored symbol to a `SymbolMatch`: the snippet is the
implementation truncated to 160 code units, the `implementation`
field is carried over untouched. -/
def toSymbolMatch (symbol : RawEsSymbol) : SymbolMatch :=
  { name := symbol.name, kind := symbol.kind, file_path := symbol.file_path,
    snippet := jsSlice0 (symbol.implementation.getD "") 160,
    is_exported := symbol.is_exported,
    relevance_score := symbol.relevance_score,
    implementation := symbol.implementation,
    jsdoc := symbol.jsdoc, signature := symbol.signature }

/-- Sort key of the document-fallback re-rank (`relevance_score ?? 0`). -/
def scoreKey (symbol : RawEsSymbol) : Int := symbol.relevance_score.getD 0

/-- Stable insertion step for the descending re-rank. -/
def insertByScoreDesc (x : RawEsSymbol) :
    List RawEsSymbol → List RawEsSymbol
  | [] => [x]
  | y :: ys =>
    if scoreKey y ≤ scoreKey x then x :: y :: ys
    else y :: insertByScoreDesc x ys

/-- Stable descending sort by stored relevance score (the comparator
`(b.relevance_score ?? 0) - (a.relevance_score ?? 0)` under the
stable-sort guarantee of `Array.prototype.sort`). -/
def sortByScoreDesc : List RawEsSymbol → List RawEsSymbol
  | [] => []
  | x :: xs => insertByScoreDesc x (sortByScoreDesc xs)

/-- The inner-hit extraction of `fetchSymbolContext`
(`response.hits.hits?.[0]?.inner_hits?.symbols?.hits?.hits ?? []`). -/
def symbolContextHits (hitOpt : Option EsHit) : List RawEsSymbol :=
  match hitOpt with
  | some hit => hit.innerSymbols
  | none => []

/-- Symbol context for one known document (`fetchSymbolContext`): use
the nested inner hits when present; otherwise fetch the document and
take its first `maxSnippets` symbols; a failing fetch degrades to an
empty list. -/
def fetchSymbolContext (es : EsEnv) (maxSnippets : Nat) :
    Except String (List SymbolMatch) :=
  match es.searchResult with
  | Except.error e => Except.error e
  | Except.ok hitOpt =>
    if (symbolContextHits hitOpt).length > 0 then
      Except.ok ((symbolContextHits hitOpt).map toSymbolMatch)
    else
      match es.getResult with
      | Except.ok doc =>
        Except.ok ((doc.symbols.take maxSnippets).map toSymbolMatch)
      | Except.error _ => Except.ok []

/-- Retrieval result of `findRelevantCode`. -/
structure Retrieved where
  source : ElasticDoc
  symbols : List SymbolMatch
  readme : String
  codeExamples : String
  exports : List ExportEntry
  deriving Repr

/-- The document-fallback re-rank of `findRelevantCode`: keep the
stored symbols with a non-empty implementation, sort them descending
by stored relevance score, and take `maxSnippets`. -/
def fallbackSymbols (docSourceFull : ElasticDoc) (maxSnippets : Nat) :
    List SymbolMatch :=
  let allSymbols := docSourceFull.symbols.filter fun symbol =>
    match symbol.implementation with
    | some impl => impl.length > 0
    | none => false
  ((sortByScoreDesc allSymbols).take maxSnippets).map toSymbolMatch

/-- The document source and symbol list `findRelevantCode` settles on:
the inner hits when present; otherwise the re-fetched full document
with its re-ranked symbols; a failing re-fetch is swallowed (warning
only), keeping the empty inner-hit list and the search-hit source. -/
def retrievedDocSymbols (hit : EsHit) (getResult : Except String ElasticDoc)
    (maxSnippets : Nat) : ElasticDoc × List SymbolMatch :=
  let innerMatches := hit.innerSymbols.map toSymbolMatch
  if innerMatches.length = 0 then
    match getResult with
    | Except.ok docSourceFull =>
      (docSourceFull, fallbackSymbols docSourceFull maxSnippets)
    | Except.error _ => (hit.source, innerMatches)
  else (hit.source, innerMatches)

/-- Package-scoped context retrieval (`findRelevantCode`): hybrid
search for the package document with nested inner hits, then the
fallback cascade of `retrievedDocSymbols`.  A thrown search failure is
not caught. -/
def findRelevantCode (es : EsEnv) (maxSnippets : Nat) :
    Except String (Option Retrieved) :=
  match es.searchResult with
  | Except.error e => Except.error e
  | Except.ok none => Except.ok none
  | Except.ok (some hit) =>
    let docAndSymbols := retrievedDocSymbols hit es.getResult maxSnippets
    Except.ok (some
      { source := docAndSymbols.1, symbols := docAndSymbols.2,
        readme := extractTextField docAndSymbols.1.readme_content,
        codeExamples := extractTextField docAndSymbols.1.code_examples,
        exports := docAndSymbols.1.exports.getD [] })

/-! ### Grounded answer generator (`createAnswerService().generateAnswer`) -/

/-- An answer request (`AnswerRequest`). -/
structure AnswerRequest where
  intent : String
  packageName : String
  searchQuery : Option String
  maxSnippets : Option Nat
  deriving Repr

/-- A citation entry of a successful response (`AnswerResponse.context`
elements). -/
structure Citation where
  name : String
  kind : String
  file_path : String
  jsdoc : Option String
  signature : Option String
  is_exported : Bool
  deriving Repr, DecidableEq

/-- A successful answer (`AnswerResponse`). -/
structure AnswerResponse where
  intent : String
  packageName : String
  searchQuery : String
  code : String
  context : List Citation
  grounded : Bool
  note : Option String
  deriving Repr, DecidableEq

/-- The value `generateAnswer` resolves with: either a response or the
structured failure object. -/
inductive AnswerOutcome where
  | ok (resp : AnswerResponse)
  | err (msg : String)
  deriving Repr, DecidableEq

/-- A value thrown by a generation attempt.  `errObj` is an `Error`
instance carrying its message; anything else is non-retryable and
falls through to the generic failure message. -/
inductive Thrown where
  | errObj (msg : String)
  | strVal (s : String)
  | otherVal
  deriving Repr, DecidableEq

/-- Outcome of one `model.generateContent` call: the resolved answer
text, or the thrown value. -/
inductive GenOutcome where
  | ok (text : String)
  | err (e : Thrown)
  deriving Repr, DecidableEq

/-- Transient-error classification (`isRetryableGeminiError`): only an
`Error` whose lowercased message mentions a 503, unavailability or
overload is retryable. -/
def isRetryableGeminiError : Thrown → Bool
  | Thrown.errObj msg =>
    let m := strLower msg
    strIncludes m "503" || strIncludes m "unavailable" ||
      strIncludes m "overloaded"
  | Thrown.strVal _ => false
  | Thrown.otherVal => false

/-- The failure string produced from the last recorded error when all
models and attempts are exhausted. -/
def thrownMessage : Option Thrown → String
  | some (Thrown.errObj msg) => msg
  | some (Thrown.strVal s) => s
  | some Thrown.otherVal => "Failed to generate answer"
  | none => "Failed to generate answer"

/-- The inner attempt loop on one model.  A model is an oracle from
the attempt number to the call outcome (the prompt is fixed for the
whole request).  Returns the successful text if any, the list of
attempt numbers actually issued, and the last thrown value.  The fuel
is the remaining number of attempts; a retryable error recurses, any
other error breaks out of the loop. -/
def runAttempts (behavior : Nat → GenOutcome) : Nat → Nat →
    Option String × List Nat × Option Thrown
  | 0, _ => (none, [], none)
  | fuel + 1, attempt =>
    match behavior attempt with
    | GenOutcome.ok text => (some text, [attempt], none)
    | GenOutcome.err e =>
      if isRetryableGeminiError e then
        match runAttempts behavior fuel (attempt + 1) with
        | (result, calls, lastErr) =>
          (result, attempt :: calls, some (lastErr.getD e))
      else (none, [attempt], some e)

/-- The outer model loop of `generateAnswer`: models are tried in
priority order, each with up to `maxAttempts` attempts; the trace
records every call as a pair of model index and attempt number.  The
third component threads `lastError`. -/
def genLoopAux (maxAttempts : Nat) :
    List (Nat → GenOutcome) → Nat → Option Thrown →
    Option String × List (Nat × Nat) × Option Thrown
  | [], _, lastErr => (none, [], lastErr)
  | behavior :: rest, m, lastErr =>
    match runAttempts behavior maxAttempts 0 with
    | (some text, calls, _) =>
      (some text, calls.map (fun attempt => (m, attempt)), lastErr)
    | (none, calls, le) =>
      match genLoopAux maxAttempts rest (m + 1)
          (match le with
           | some e => some e
           | none => lastErr) with
      | (result, trace, finalErr) =>
        (result, calls.map (fun attempt => (m, attempt)) ++ trace, finalErr)

/-- Effective search query: the trimmed `searchQuery` when provided and
non-blank, else the intent. -/
def effectiveQuery (payload : AnswerRequest) : String :=
  match payload.searchQuery with
  | some s => if jsTrim s = "" then payload.intent else jsTrim s
  | none => payload.intent

/-- Effective snippet budget (`payload.maxSnippets ?? 3`). -/
def effectiveMaxSnippets (payload : AnswerRequest) : Nat :=
  payload.maxSnippets.getD 3

/-- Per-symbol prompt block and their concatenation (the
`symbolsContext` template of `generateAnswer`). -/
def symbolsContextOf (symbols : List SymbolMatch) : String :=
  jsJoin "\n\n" (symbols.map fun symbol =>
    let implementation := jsSlice0 (symbol.implementation.getD "") 600
    jsJoin "\n" (([
      "// " ++ (if symbol.is_exported then "Public API" else "Internal") ++
        " " ++ symbol.kind ++ " " ++ symbol.name,
      "// File: " ++ symbol.file_path,
      symbol.jsdoc.getD "",
      symbol.signature.getD "",
      implementation]).filter fun part => part ≠ ""))

/-- Export survey lines of the grounded prompt (`exportsContext`). -/
def exportsContextOf (exports : List ExportEntry) : String :=
  if exports.length > 0 then
    jsJoin "\n\n" ((exports.take 10).map fun ex =>
      ex.kind ++ " " ++ ex.name ++
      (match ex.signature with
       | some s => if s = "" then "" else " â€” " ++ s
       | none => "") ++
      (match ex.jsdoc with
       | some j => if j = "" then "" else "\n" ++ j
       | none => ""))
  else ""

/-- A template placeholder: the value when non-empty, else the given
fallback (the `x || "(...)"` pattern of the prompt). -/
def orElseText (value fallback : String) : String :=
  if value = "" then fallback else value

/-- The prompt sent to the model: the grounded template when grounded
context is available, the ungrounded best-effort template otherwise. -/
def buildPrompt (groundedContext : Option Retrieved)
    (payload : AnswerRequest) : String :=
  match groundedContext with
  | some ctx =>
    let readmeExcerpt := if ctx.readme = "" then "" else jsSlice0 ctx.readme 2000
    let codeExamples :=
      if ctx.codeExamples = "" then "" else jsSlice0 ctx.codeExamples 1200
    "You are a TypeScript assistant grounded in the provided context.\n\n" ++
    "PACKAGE: " ++ ctx.source.name ++ "@" ++ ctx.source.version ++ "\n" ++
    "INTENT: " ++ payload.intent ++ "\n\n" ++
    "README EXCERPT:\n" ++
    orElseText readmeExcerpt "(no README data provided)" ++ "\n\n" ++
    "CODE EXAMPLES:\n" ++
    orElseText codeExamples "(no code examples provided)" ++ "\n\n" ++
    "EXPORTED API SURVEY:\n" ++
    orElseText (exportsContextOf ctx.exports) "(no export metadata available)" ++
    "\n\n" ++
    "AVAILABLE IMPLEMENTATIONS:\n" ++
    orElseText (symbolsContextOf ctx.symbols)
      "(no implementation snippets available)" ++ "\n\n" ++
    "Write a concise explanation of the approach (2-3 sentences) followed " ++
    "by a TypeScript example that satisfies the intent using only the APIs " ++
    "shown above.\n" ++
    "If the context is insufficient, reply with \"INSUFFICIENT_CONTEXT: " ++
    "reason\".\n" ++
    "Include brief inline comments if it clarifies the flow."
  | none =>
    "You are a TypeScript assistant.\n\n" ++
    "PACKAGE: " ++ payload.packageName ++ "\n" ++
    "INTENT: " ++ payload.intent ++ "\n\n" ++
    "No grounded source snippets were available. Produce the best-effort " ++
    "TypeScript example based on your general knowledge.\n" ++
    "1. Begin with a short explanation (2-3 sentences) describing the " ++
    "approach and note that the response is ungrounded.\n" ++
    "2. Provide the TypeScript example in a code fence.\n" ++
    "3. Add inline comments to highlight important steps.\n" ++
    "4. Do not fabricate APIs that are very unlikely to exist; prefer " ++
    "idiomatic usage."

/-- Citation projection of a retrieved symbol (the `context` mapping of
a successful response). -/
def toCitation (symbol : SymbolMatch) : Citation :=
  { name := symbol.name, kind := symbol.kind, file_path := symbol.file_path,
    jsdoc := symbol.jsdoc, signature := symbol.signature,
    is_exported := symbol.is_exported }

/-- Environment of one `generateAnswer` call: the retrieval oracle,
the configured model oracles in priority order (the assembled `models`
array of `createAnswerService`), and the service options. -/
structure AnswerEnv where
  es : EsEnv
  models : List (Nat → GenOutcome)
  maxRetries : Nat
  allowUngroundedFallback : Bool

/-- Groundedness of a retrieval result
(`Boolean(context && context.symbols.length > 0)`). -/
def contextHasSymbols : Option Retrieved → Bool
  | some ctx => decide (ctx.symbols.length > 0)
  | none => false

/-- The grounded answer generator (`generateAnswer`).  The result is
`Except.error` for an uncaught exception (a retrieval failure that
propagates), otherwise the resolved `AnswerOutcome` paired with the
trace of model calls `(model index, attempt number)` made. -/
def generateAnswer (env : AnswerEnv) (payload : AnswerRequest) :
    Except String (AnswerOutcome × List (Nat × Nat)) :=
  if env.models.length = 0 then
    Except.ok (AnswerOutcome.err "Gemini API key not configured", [])
  else
    let searchQuery := effectiveQuery payload
    let maxSnippets := effectiveMaxSnippets payload
    match findRelevantCode env.es maxSnippets with
    | Except.error e => Except.error e
    | Except.ok context =>
      let hasGroundedContext := contextHasSymbols context
      if !hasGroundedContext && !env.allowUngroundedFallback then
        Except.ok (AnswerOutcome.err
          ("No relevant symbols found for " ++ payload.packageName ++
            " with query \"" ++ searchQuery ++ "\""), [])
      else
        let groundedContext := if hasGroundedContext then context else none
        let _prompt := buildPrompt groundedContext payload
        match genLoopAux (max 1 env.maxRetries) env.models 0 none with
        | (some answer, trace, _) =>
          Except.ok (AnswerOutcome.ok
            { intent := payload.intent,
              packageName := payload.packageName,
              searchQuery := searchQuery,
              code := jsTrim answer,
              context :=
                match groundedContext with
                | some ctx => ctx.symbols.map toCitation
                | none => [],
              grounded := hasGroundedContext,
              note :=
                if hasGroundedContext then none
                else some ("Generated without grounded context. " ++
                  "Verify against official docs before use.") }, trace)
        | (none, trace, lastErr) =>
          Except.ok (AnswerOutcome.err (thrownMessage lastErr), trace)

/-! ### Package metadata fetcher (ingestion `fetcher.ts`) -/

/-- The `repository` field of a package manifest: either a plain string
or an object with an optional `url`. -/
inductive RepoField where
  | strRepo (s : String)
  | objRepo (url : Option String)
  deriving Repr

/-- The parts of `package.json` the ingestion reads. -/
structure PackageJson where
  name : String
  version : String
  description : Option String
  keywords : Option (List String)
  repository : Option RepoField
  deriving Repr

/-- The data `fetchPackage` returns. -/
structure PackageData where
  pkgJson : PackageJson
  readme : String
  dts : String
  deriving Repr

/-- Oracle for the three CDN requests `fetchPackage` issues
(`package.json`, `README.md`, `dist/index.d.ts`): each settles
independently, `Except.error` standing for a rejected promise.  The
README and declaration requests already map a non-OK status to `""`
before settling. -/
structure FetchOracle where
  pkgJsonRes : Except String PackageJson
  readmeRes : Except String String
  dtsRes : Except String String

/-- Package metadata fetch (`fetchPackage`).  The three requests are
combined with `Promise.allSettled`, so each failure is absorbed
individually: a failed manifest request falls back to the placeholder
`name, version := "unknown"` record, failed README or declaration
requests fall back to the empty string, and the function itself never
rejects (the surrounding catch-and-rethrow is unreachable). -/
def fetchPackage (pkg : String) (oracle : FetchOracle) : PackageData :=
  { pkgJson :=
      match oracle.pkgJsonRes with
      | Except.ok j => j
      | Except.error _ =>
        { name := pkg, version := "unknown", description := none,
          keywords := none, repository := none },
    readme :=
      match oracle.readmeRes with
      | Except.ok r => r
      | Except.error _ => "",
    dts :=
      match oracle.dtsRes with
      | Except.ok d => d
      | Except.error _ => "" }

/-- A legacy export scanned from the declaration file (`ExportInfo`). -/
structure ExportInfo where
  kind : String
  name : String
  signature : String
  jsdoc : Option String
  deriving Repr, DecidableEq

/-- Is the character part of an export name (`[A-Za-z0-9_$]`)? -/
def isNameChar (c : Char) : Bool :=
  (('A' ≤ c && c ≤ 'Z') || ('a' ≤ c && c ≤ 'z')) || c.isDigit ||
    c == '_' || c == '$'

/-- The declaration kinds matched by the export scan, in alternation
order; no list element is a proper leading segment of another, so at
most one alternative matches at a position. -/
def exportKinds : List String :=
  ["function", "class", "interface", "type", "const", "enum"]

/-- Try to match the export pattern
`export\s+(kind)\s+(name)` at the head of the input, returning the
matched length, the kind and the name. -/
def matchExportAt (cs : List Char) : Option (Nat × String × String) :=
  if leadMatch (chars "export") cs then
    let rest := cs.drop 6
    let ws1 := (rest.takeWhile Char.isWhitespace).length
    if ws1 = 0 then none
    else
      let afterWs1 := rest.drop ws1
      match exportKinds.find? (fun k => leadMatch (chars k) afterWs1) with
      | none => none
      | some kind =>
        let afterKind := afterWs1.drop kind.length
        let ws2 := (afterKind.takeWhile Char.isWhitespace).length
        if ws2 = 0 then none
        else
          let afterWs2 := afterKind.drop ws2
          let nameLen := (afterWs2.takeWhile isNameChar).length
          if nameLen = 0 then none
          else some (6 + ws1 + kind.length + ws2 + nameLen, kind,
            ofChars (afterWs2.take nameLen))
  else none

/-- The global-regex driver of the export scan: find successive
non-overlapping matches, resuming after each match, and record the
match positions. -/
def scanExportsGo (cs : List Char) (pos : Nat) : List (Nat × String × String) :=
  match cs with
  | [] => []
  | c :: rest =>
    match matchExportAt (c :: rest) with
    | some m => (pos, m.2.1, m.2.2) ::
        scanExportsGo (rest.drop (m.1 - 1)) (pos + m.1)
    | none => scanExportsGo rest (pos + 1)
termination_by cs.length
decreasing_by
  · simp only [List.length_cons, List.length_drop]
    omega
  · simp only [List.length_cons]
    omega

/-- Nearest-close scan for an unanchored doc-comment match: split the
input at the first closing delimiter, returning the consumed
characters (body and close) and the remainder after it. -/
def closeScan2 : List Char → Option (List Char × List Char)
  | [] => none
  | c :: rest =>
    if c = '*' ∧ rest.head? = some '/' then some (['*', '/'], rest.tail)
    else (closeScan2 rest).map fun pr => (c :: pr.1, pr.2)

/-- The remainder of a successful `closeScan2` is strictly shorter
than the input. -/
theorem closeScan2_length :
    ∀ cs p rem, closeScan2 cs = some (p, rem) → rem.length < cs.length := by
  intro cs
  induction cs with
  | nil => intro p rem h; simp [closeScan2] at h
  | cons c rest ih =>
    intro p rem h
    simp only [closeScan2] at h
    split at h
    · have hrem : rem = rest.tail := by
        injection h with h'
        exact (congrArg Prod.snd h').symm
      subst hrem
      have := List.length_tail rest
      simp only [List.length_cons]
      omega
    · match hm : closeScan2 rest with
      | none => rw [hm] at h; simp at h
      | some pr =>
        rw [hm] at h
        simp only [Option.map_some'] at h
        have hrem : rem = pr.2 := by
          injection h with h'
          exact (congrArg Prod.snd h').symm
        subst hrem
        have := ih pr.1 pr.2 (by rw [hm])
        simp only [List.length_cons]
        omega

/-- All (non-overlapping, leftmost) doc-comment matches in a text
window, in order: the global match used to find the last doc comment
before an export. -/
def jsdocAllGo (cs : List Char) : List (List Char) :=
  match cs with
  | '/' :: '*' :: '*' :: rest =>
    (match h : closeScan2 rest with
     | some pr => ('/' :: '*' :: '*' :: pr.1) :: jsdocAllGo pr.2
     | none => jsdocAllGo ('*' :: '*' :: rest))
  | _ :: rest => jsdocAllGo rest
  | [] => []
termination_by cs.length
decreasing_by
  · have := closeScan2_length rest pr.1 pr.2 h
    simp only [List.length_cons]
    omega
  · simp only [List.length_cons]
    omega
  · simp only [List.length_cons]
    omega

/-- Export scan over a declaration file (`extractExportsSimple`): each
match contributes a signature snippet (400 characters, first 6 lines,
trimmed) and the last doc-comment block found in the 500 characters
before the match. -/
def extractExportsSimple (dts : String) : List ExportInfo :=
  if dts = "" then []
  else
    (scanExportsGo (chars dts) 0).map fun m =>
      let startIndex := m.1
      let snippet := jsSlice dts startIndex (startIndex + 400)
      let signature := jsTrim (jsJoin "\n" ((splitLines snippet).take 6))
      let beforeExport := jsSlice dts (startIndex - 500) startIndex
      let jsdocMatches := jsdocAllGo (chars beforeExport)
      { kind := m.2.1, name := m.2.2, signature,
        jsdoc := jsdocMatches.getLast?.map ofChars }

/-- Consume the optional language tag and mandatory newline after an
opening code fence, trying the alternation
`ts | js | typescript | javascript` in order before the bare
newline. -/
def fenceLangRest (cs : List Char) : Option (List Char) :=
  match ["ts", "js", "typescript", "javascript"].find?
      (fun lang => leadMatch (chars (lang ++ "\n")) cs) with
  | some lang => some (cs.drop (lang.length + 1))
  | none =>
    match cs with
    | '\n' :: rest => some rest
    | _ => none

/-- The remainder of a successful `fenceLangRest` is strictly shorter
than the input. -/
theorem fenceLangRest_length :
    ∀ cs rem, fenceLangRest cs = some rem → rem.length < cs.length := by
  intro cs rem h
  unfold fenceLangRest at h
  split at h
  · rename_i lang hf
    simp only [Option.some.injEq] at h
    subst h
    have hmem := List.mem_of_find?_eq_some hf
    have hlead := List.find?_some hf
    have hne : cs ≠ [] := by
      intro hnil
      subst hnil
      fin_cases hmem <;> exact absurd hlead (by decide)
    have hpos : 0 < cs.length := List.length_pos.mpr hne
    simp only [List.length_drop]
    omega
  · split at h
    · rename_i rest
      simp only [Option.some.injEq] at h
      subst h
      simp
    · exact absurd h (by simp)

/-- Split the input at the first closing code fence, returning the
body before it and the remainder after it. -/
def closeFence : List Char → Option (List Char × List Char)
  | [] => none
  | c :: rest =>
    if c = '`' ∧ rest.head? = some '`' ∧ rest.tail.head? = some '`' then
      some ([], rest.tail.tail)
    else (closeFence rest).map fun pr => (c :: pr.1, pr.2)

/-- The remainder of a successful `closeFence` is strictly shorter
than the input. -/
theorem closeFence_length :
    ∀ cs p rem, closeFence cs = some (p, rem) → rem.length < cs.length := by
  intro cs
  induction cs with
  | nil => intro p rem h; simp [closeFence] at h
  | cons c rest ih =>
    intro p rem h
    simp only [closeFence] at h
    split at h
    · have hrem : rem = rest.tail.tail := by
        injection h with h'
        exact (congrArg Prod.snd h').symm
      subst hrem
      have h1 := List.length_tail rest
      have h2 := List.length_tail rest.tail
      simp only [List.length_cons]
      omega
    · match hm : closeFence rest with
      | none => rw [hm] at h; simp at h
      | some pr =>
        rw [hm] at h
        simp only [Option.map_some'] at h
        have hrem : rem = pr.2 := by
          injection h with h'
          exact (congrArg Prod.snd h').symm
        subst hrem
        have := ih pr.1 pr.2 (by rw [hm])
        simp only [List.length_cons]
        omega

/-- Complete a fence match after an opening delimiter: consume the
optional language tag and newline, then the lazily-nearest closing
fence; return the trimmed body and the remainder after the close. -/
def fenceAt (rest : List Char) : Option (String × List Char) :=
  match fenceLangRest rest with
  | some afterLang =>
    (match closeFence afterLang with
     | some pr => some (jsTrim (ofChars pr.1), pr.2)
     | none => none)
  | none => none

/-- The remainder of a successful `fenceAt` is strictly shorter than
the input. -/
theorem fenceAt_length :
    ∀ rest code rem, fenceAt rest = some (code, rem) →
      rem.length < rest.length := by
  intro rest code rem h
  unfold fenceAt at h
  split at h
  · rename_i afterLang hl
    split at h
    · rename_i pr hc
      have h1 := fenceLangRest_length rest afterLang hl
      have h2 := closeFence_length afterLang pr.1 pr.2 (by rw [hc])
      have hrem : rem = pr.2 := by
        injection h with h'
        exact (congrArg Prod.snd h').symm
      subst hrem
      omega
    · exact absurd h (by simp)
  · exact absurd h (by simp)

/-- Fenced-code-block scan (`extractCodeBlocks`): at each opening
fence with a recognised optional language tag and a newline, capture
the lazily-nearest body up to the closing fence; trimmed non-empty
bodies are collected, and scanning resumes after the closing fence. -/
def codeBlockScan (cs : List Char) : List String :=
  match cs with
  | '`' :: '`' :: '`' :: rest =>
    (match h : fenceAt rest with
     | some pr =>
       if pr.1 = "" then codeBlockScan pr.2 else pr.1 :: codeBlockScan pr.2
     | none => codeBlockScan ('`' :: '`' :: rest))
  | _ :: rest => codeBlockScan rest
  | [] => []
termination_by cs.length
decreasing_by
  all_goals simp only [List.length_cons]
  · have := fenceAt_length rest pr.1 pr.2 (by rw [h])
    omega
  · have := fenceAt_length rest pr.1 pr.2 (by rw [h])
    omega
  · omega
  · omega

/-- Code-example extraction from the README (`extractCodeBlocks`). -/
def extractCodeBlocks (markdown : String) : List String :=
  if markdown = "" then [] else codeBlockScan (chars markdown)

/-- README text prepared for indexing (`prepareReadmeContent`):
the README followed by a code-examples section when any block was
found. -/
def prepareReadmeContent (readme : String) (codeBlocks : List String) :
    String :=
  let codeSection :=
    if codeBlocks.length > 0 then
      "\n\n## Code Examples\n\n" ++ jsJoin "\n\n" codeBlocks
    else ""
  readme ++ codeSection

/-! ### Source-code fetcher (ingestion `source-fetcher.ts`) -/

/-- One fetched source file. -/
structure SourceFile where
  path : String
  content : String
  size : Nat
  deriving Repr, DecidableEq

/-- The result of one fetch strategy (`SourceCodeResult`); `strategy`
is one of `github | tarball | unpkg`. -/
structure SourceCodeResult where
  files : List SourceFile
  strategy : String
  totalSize : Nat
  deriving Repr, DecidableEq

/-- Oracles for the three strategies: the settled results of the
GitHub and registry-tarball strategies (`none` for a caught failure,
otherwise the result those functions build, possibly with zero
matching files), and the per-path CDN probe (`some content` for an OK
response, `none` for a miss or error). -/
structure FetchStrategies where
  github : Option SourceCodeResult
  tarball : Option SourceCodeResult
  unpkgProbe : String → Option String

/-- The fixed entry-point paths probed on the CDN. -/
def commonPaths : List String :=
  ["/src/index.ts", "/src/index.js", "/src/client.ts", "/src/main.ts",
   "/lib/index.js", "/lib/main.js"]

/-- CDN fallback strategy (`fetchFromUnpkg`): probe the fixed path
list in order, keep every OK response as a file whose size is its
content length, and return `none` when no path responded. -/
def fetchFromUnpkg (probe : String → Option String) :
    Option SourceCodeResult :=
  let files := commonPaths.filterMap fun p =>
    (probe p).map fun content =>
      ({ path := p, content, size := content.length } : SourceFile)
  if files.length = 0 then none
  else some { files, strategy := "unpkg",
              totalSize := (files.map fun f => f.size).sum }

/-- Keep a strategy result only when it produced at least one file
(the `result && result.files.length > 0` guards of
`fetchSourceCode`). -/
def keepIfNonempty : Option SourceCodeResult → Option SourceCodeResult
  | some r => if r.files.length > 0 then some r else none
  | none => none

/-- Strategy cascade (`fetchSourceCode`): GitHub (only when a
repository URL is present), then the registry tarball, then the CDN
probe; the first result with at least one file wins, and `none` is
returned only when every strategy yields no files. -/
def fetchSourceCode (repoUrl : Option String) (strategies : FetchStrategies) :
    Option SourceCodeResult :=
  match keepIfNonempty (if repoUrl.isSome then strategies.github else none) with
  | some githubResult => some githubResult
  | none =>
    match keepIfNonempty strategies.tarball with
    | some tarballResult => some tarballResult
    | none => keepIfNonempty (fetchFromUnpkg strategies.unpkgProbe)

/-! ### Indexer (`indexer.ts`) -/

/-- A symbol as stored in the index document (the `symbols` mapping of
`indexPackage`, with the relevance score computed at indexing time). -/
structure DocSymbol where
  kind : String
  name : String
  signature : String
  implementation : String
  jsdoc : Option String
  file_path : String
  start_line : Nat
  end_line : Nat
  is_exported : Bool
  parameters : Option (List String)
  return_type : Option String
  relevance_score : Int
  deriving Repr, DecidableEq

/-- The full index document (`PackageDocument`). -/
structure PackageDocument where
  name : String
  version : String
  description : String
  keywords : List String
  readme_content : String
  repository_url : Option String
  source_strategy : String
  exports : List ExportInfo
  symbols : List DocSymbol
  source_code_content : String
  code_examples : String
  total_symbols : Nat
  total_source_files : Nat
  total_source_size : Nat
  deriving Repr

/-- Repository URL extraction in `indexPackage`
(`typeof repository === "string" ? repository : repository?.url`). -/
def repoUrlOf : Option RepoField → Option String
  | none => none
  | some (RepoField.strRepo s) => some s
  | some (RepoField.objRepo url) => url

/-- Oracles for the external effects of one `indexPackage` run: the
metadata CDN requests, the source-fetch strategies, the TypeScript
front end, and the final index write. -/
structure IngestOracle where
  fetch : FetchOracle
  strategies : FetchStrategies
  astOf : String → String → TsNode
  indexResult : Except String Unit

/-- Ingestion of one package (`indexPackage`): fetch metadata, extract
legacy exports and README code blocks, fetch and parse source code,
filter and score symbols, assemble the document, and submit it.
`Except.error` is the rethrown failure of a step; with the oracle
semantics above, only the index write can fail. -/
def indexPackage (packageName : String) (oracle : IngestOracle) :
    Except String PackageDocument :=
  let pd := fetchPackage packageName oracle.fetch
  let exports := extractExportsSimple pd.dts
  let codeBlocks := extractCodeBlocks pd.readme
  let readmeContent := prepareReadmeContent pd.readme codeBlocks
  let repoUrl := repoUrlOf pd.pkgJson.repository
  let sourceCode := fetchSourceCode repoUrl oracle.strategies
  let parsed : List ParsedSymbol × String × Nat × Nat :=
    match sourceCode with
    | some sc =>
      if sc.files.length > 0 then
        let allSymbols := parseSourceFiles oracle.astOf
          (sc.files.map fun f => (f.path, f.content))
        (filterRelevantSymbols allSymbols, sc.strategy, sc.files.length,
          sc.totalSize)
      else ([], "none", 0, 0)
    | none => ([], "none", 0, 0)
  let symbols := parsed.1
  let sourceCodeContent :=
    jsJoin "\n\n---\n\n" (symbols.map createSymbolSearchText)
  let doc : PackageDocument :=
    { name := pd.pkgJson.name,
      version := pd.pkgJson.version,
      description := pd.pkgJson.description.getD "",
      keywords := pd.pkgJson.keywords.getD [],
      readme_content := readmeContent,
      repository_url := repoUrl,
      source_strategy := parsed.2.1,
      exports,
      symbols := symbols.map fun symbol =>
        { kind := symbol.kind, name := symbol.name,
          signature := symbol.signature,
          implementation := symbol.implementation,
          jsdoc := symbol.jsdoc, file_path := symbol.filePath,
          start_line := symbol.startLine, end_line := symbol.endLine,
          is_exported := symbol.isExported,
          parameters := symbol.parameters,
          return_type := symbol.returnType,
          relevance_score := calculateRelevanceScore symbol },
      source_code_content := sourceCodeContent,
      code_examples := jsJoin "\n\n" codeBlocks,
      total_symbols := symbols.length,
      total_source_files := parsed.2.2.1,
      total_source_size := parsed.2.2.2 }
  match oracle.indexResult with
  | Except.ok _ => Except.ok doc
  | Except.error e => Except.error e

/-- Batch ingestion (`indexPackages`): packages are processed
sequentially, each paired with the oracle describing its external
interactions; a per-package failure is caught, counted as failed, and
the batch continues.  Returns `(successful, failed)`. -/
def indexPackages (packages : List (String × IngestOracle)) : Nat × Nat :=
  packages.foldl
    (fun counts pkg =>
      match indexPackage pkg.1 pkg.2 with
      | Except.ok _ => (counts.1 + 1, counts.2)
      | Except.error _ => (counts.1, counts.2 + 1))
    (0, 0)

/-! ### Fixtures and theorems -/

/-- The source text of parsing scenario A. -/
def addSourceText : String :=
  "export function add(a: number, b: number): number { return a + b; }"

/-- The tree the TypeScript front end produces for `addSourceText`:
one exported function declaration spanning the whole line, with two
type-annotated parameters and an annotated return type; its children
(identifier, parameters, return type, body) carry no declarations. -/
def addSourceAst : TsNode :=
  TsNode.mk TsNodeInfo.otherNode
    [TsNode.mk
      (TsNodeInfo.functionDecl (some "add")
        [{ nameText := "a", typeText := some "number", text := "a: number" },
         { nameText := "b", typeText := some "number", text := "b: number" }]
        (some "number") (some [TsModifier.exportKeyword])
        { fullStart := 0, startPos := 0, endPos := 67 })
      [TsNode.mk TsNodeInfo.otherNode [],
       TsNode.mk TsNodeInfo.otherNode [TsNode.mk TsNodeInfo.otherNode []]]]

/-- C7: parsing the single-line source text
`export function add(a: number, b: number): number { return a + b; }`
yields exactly one symbol, of kind `function`, named `add`, exported,
with parameters `a: number` and `b: number` and return type
`number`. -/
theorem parse_add_single_function :
    (parseSourceFile (fun _ _ => addSourceAst) "index.ts" addSourceText).symbols
      = [{ kind := "function", name := "add",
           signature := "function add(a: number, b: number): number",
           implementation :=
             "export function add(a: number, b: number): number { return a + b; }",
           jsdoc := none, startLine := 1, endLine := 1,
           filePath := "index.ts", isExported := true,
           parameters := some ["a: number", "b: number"],
           returnType := some "number" }] := by
  decide

/-- A symbol whose implementation has 40 characters (scenario B,
dropped). -/
def shortSymbol : ParsedSymbol :=
  { kind := "function", name := "tiny",
    signature := "function tiny()",
    implementation := ofChars (List.replicate 40 'a'),
    jsdoc := none, startLine := 1, endLine := 1,
    filePath := "src/tiny.ts", isExported := true,
    parameters := some [], returnType := some "void" }

/-- A symbol whose implementation has 5000 characters and whose path
matches no exclude pattern (scenario B, kept). -/
def keptSymbol : ParsedSymbol :=
  { kind := "function", name := "core",
    signature := "function core()",
    implementation := ofChars (List.replicate 5000 'b'),
    jsdoc := none, startLine := 1, endLine := 120,
    filePath := "src/core.ts", isExported := true,
    parameters := some [], returnType := some "void" }

/-- C8: `filterRelevantSymbols` keeps a symbol exactly when its
implementation length lies in `[50, 10000]` and its file path contains
none of the test/spec/mock/fixture markers; a 40-character entry is
removed and a clean 5000-character entry is kept. -/
theorem filter_relevant_symbols_spec :
    (∀ (symbols : List ParsedSymbol) (s : ParsedSymbol),
      s ∈ filterRelevantSymbols symbols ↔
        s ∈ symbols ∧
        50 ≤ s.implementation.length ∧ s.implementation.length ≤ 10000 ∧
        strIncludes s.filePath ".test." = false ∧
        strIncludes s.filePath ".spec." = false ∧
        strIncludes s.filePath "__tests__" = false ∧
        strIncludes s.filePath "mock" = false ∧
        strIncludes s.filePath "fixture" = false ∧
        strIncludes s.filePath "__mocks__" = false) ∧
    filterRelevantSymbols [shortSymbol] = [] ∧
    filterRelevantSymbols [keptSymbol] = [keptSymbol] := by
  have hiff : ∀ (symbols : List ParsedSymbol) (s : ParsedSymbol),
      s ∈ filterRelevantSymbols symbols ↔
        s ∈ symbols ∧
        50 ≤ s.implementation.length ∧ s.implementation.length ≤ 10000 ∧
        strIncludes s.filePath ".test." = false ∧
        strIncludes s.filePath ".spec." = false ∧
        strIncludes s.filePath "__tests__" = false ∧
        strIncludes s.filePath "mock" = false ∧
        strIncludes s.filePath "fixture" = false ∧
        strIncludes s.filePath "__mocks__" = false := by
    intro symbols s
    rw [filterRelevantSymbols, List.mem_filter]
    constructor
    · rintro ⟨hmem, hp⟩
      refine ⟨hmem, ?_⟩
      split_ifs at hp with h1 h2 h3 h4
      simp only [Bool.or_eq_true, not_or, Bool.not_eq_true] at h3 h4
      exact ⟨by omega, by omega, h3.1.1, h3.1.2, h3.2,
        h4.1.1, h4.1.2, h4.2⟩
    · rintro ⟨hmem, h50, h10k, m1, m2, m3, m4, m5, m6⟩
      refine ⟨hmem, ?_⟩
      split_ifs with h1 h2 h3 h4
      · omega
      · omega
      · simp [m1, m2, m3] at h3
      · simp [m4, m5, m6] at h4
      · rfl
  have hshortLen : shortSymbol.implementation.length = 40 := by
    show (ofChars (List.replicate 40 'a')).length = 40
    show (List.replicate 40 'a').length = 40
    rw [List.length_replicate]
  have hkeptLen : keptSymbol.implementation.length = 5000 := by
    show (ofChars (List.replicate 5000 'b')).length = 5000
    show (List.replicate 5000 'b').length = 5000
    rw [List.length_replicate]
  refine ⟨hiff, ?_, ?_⟩
  · have hp : (if shortSymbol.implementation.length < 50 then false
        else if shortSymbol.implementation.length > 10000 then false
        else if strIncludes shortSymbol.filePath ".test." ||
            strIncludes shortSymbol.filePath ".spec." ||
            strIncludes shortSymbol.filePath "__tests__" then false
        else if strIncludes shortSymbol.filePath "mock" ||
            strIncludes shortSymbol.filePath "fixture" ||
            strIncludes shortSymbol.filePath "__mocks__" then false
        else true) = false := by
      rw [hshortLen]
      decide
    rw [filterRelevantSymbols, List.filter_cons, List.filter_nil,
      if_neg (by simp only [hp]; decide)]
  · have hp : (if keptSymbol.implementation.length < 50 then false
        else if keptSymbol.implementation.length > 10000 then false
        else if strIncludes keptSymbol.filePath ".test." ||
            strIncludes keptSymbol.filePath ".spec." ||
            strIncludes keptSymbol.filePath "__tests__" then false
        else if strIncludes keptSymbol.filePath "mock" ||
            strIncludes keptSymbol.filePath "fixture" ||
            strIncludes keptSymbol.filePath "__mocks__" then false
        else true) = true := by
      rw [hkeptLen]
      decide
    rw [filterRelevantSymbols, List.filter_cons, List.filter_nil,
      if_pos (by simp only [hp])]

/-- Closed instance of the C8 filter characterisation, obtained by
applying it to the two scenario symbols. -/
theorem filter_relevant_symbols_spec_witness :
    (shortSymbol ∉ filterRelevantSymbols [shortSymbol]) ∧
    (keptSymbol ∈ filterRelevantSymbols [keptSymbol]) := by
  constructor
  · rw [filter_relevant_symbols_spec.2.1]
    exact List.not_mem_nil shortSymbol
  · rw [filter_relevant_symbols_spec.2.2]
    exact List.mem_singleton_self keptSymbol

/-- C10: the relevance score is the sum of seven bonuses
(10, 5, 3, 2, 2, 1, 2), each granted at most once, so it always lies
between 0 and 25. -/
theorem relevance_score_bounds :
    ∀ symbol : ParsedSymbol,
      0 ≤ calculateRelevanceScore symbol ∧
        calculateRelevanceScore symbol ≤ 25 := by
  intro symbol
  unfold calculateRelevanceScore
  split_ifs <;> norm_num

/-- A strategy result kept by `keepIfNonempty` is unchanged when it
already guarantees at least one file, as `fetchFromUnpkg` results do. -/
theorem keepIfNonempty_fetchFromUnpkg (probe : String → Option String) :
    keepIfNonempty (fetchFromUnpkg probe) = fetchFromUnpkg probe := by
  simp only [fetchFromUnpkg]
  split
  · rfl
  · rename_i hne
    simp only [keepIfNonempty]
    rw [if_pos (by omega)]

/-- An optional strategy result yields no files. -/
def yieldsNoFiles (result : Option SourceCodeResult) : Prop :=
  ∀ r, result = some r → r.files = []

/-- `keepIfNonempty` returns `none` exactly on strategies that yielded
no files. -/
theorem keepIfNonempty_eq_none (result : Option SourceCodeResult) :
    keepIfNonempty result = none ↔ yieldsNoFiles result := by
  cases result with
  | none => simp [keepIfNonempty, yieldsNoFiles]
  | some r =>
    simp only [keepIfNonempty, yieldsNoFiles]
    constructor
    · intro h s hs
      obtain rfl : r = s := by injection hs
      split at h
      · exact absurd h (by simp)
      · rename_i hlen
        exact List.eq_nil_of_length_eq_zero (by omega)
    · intro h
      rw [if_neg]
      have := h r rfl
      simp [this]

/-- C6: `fetchSourceCode` tries GitHub (only with a repository URL),
then the registry tarball, then the CDN probe, returning the first
result with at least one file; it returns `none` exactly when all
three strategies yield no files; and in scenario C (no repository URL,
a tarball result with zero matching files, a CDN probe answering only
at `/src/index.js`) it returns that single file under the `unpkg`
strategy with `totalSize` equal to the file size. -/
theorem fetch_source_code_cascade :
    (∀ (u : String) (o : FetchStrategies) (g : SourceCodeResult),
      o.github = some g → g.files ≠ [] →
      fetchSourceCode (some u) o = some g) ∧
    (∀ (repoUrl : Option String) (o : FetchStrategies) (t : SourceCodeResult),
      yieldsNoFiles (if repoUrl.isSome then o.github else none) →
      o.tarball = some t → t.files ≠ [] →
      fetchSourceCode repoUrl o = some t) ∧
    (∀ (repoUrl : Option String) (o : FetchStrategies),
      yieldsNoFiles (if repoUrl.isSome then o.github else none) →
      yieldsNoFiles o.tarball →
      fetchSourceCode repoUrl o = fetchFromUnpkg o.unpkgProbe) ∧
    (∀ (repoUrl : Option String) (o : FetchStrategies),
      fetchSourceCode repoUrl o = none ↔
        (yieldsNoFiles (if repoUrl.isSome then o.github else none) ∧
         yieldsNoFiles o.tarball ∧
         fetchFromUnpkg o.unpkgProbe = none)) ∧
    (∀ content : String,
      fetchSourceCode none
        { github := none,
          tarball := some { files := [], strategy := "tarball", totalSize := 0 },
          unpkgProbe := fun p => if p = "/src/index.js" then some content else none } =
        some { files := [{ path := "/src/index.js", content := content,
                           size := content.length }],
               strategy := "unpkg", totalSize := content.length }) := by
  refine ⟨?_, ?_, ?_, ?_, ?_⟩
  · intro u o g hg hne
    unfold fetchSourceCode
    rw [show ((some u : Option String).isSome) = true from rfl, if_pos rfl, hg]
    simp only [keepIfNonempty]
    rw [if_pos (by cases hf : g.files with
      | nil => exact absurd hf hne
      | cons a l => simp)]
  · intro repoUrl o t hg ht hne
    unfold fetchSourceCode
    rw [(keepIfNonempty_eq_none _).mpr hg, ht]
    simp only [keepIfNonempty]
    rw [if_pos (by cases hf : t.files with
      | nil => exact absurd hf hne
      | cons a l => simp)]
  · intro repoUrl o hg ht
    unfold fetchSourceCode
    rw [(keepIfNonempty_eq_none _).mpr hg]
    rw [show keepIfNonempty o.tarball = none from by
      cases hob : o.tarball with
      | none => rfl
      | some t =>
        simp only [keepIfNonempty]
        have := ht t hob
        rw [if_neg]
        simp [this]]
    exact keepIfNonempty_fetchFromUnpkg o.unpkgProbe
  · intro repoUrl o
    unfold fetchSourceCode
    constructor
    · intro h
      match hgh : keepIfNonempty (if repoUrl.isSome then o.github else none) with
      | some g => rw [hgh] at h; exact absurd h (by simp)
      | none =>
        rw [hgh] at h
        match htb : keepIfNonempty o.tarball with
        | some t => rw [htb] at h; exact absurd h (by simp)
        | none =>
          rw [htb] at h
          rw [keepIfNonempty_fetchFromUnpkg] at h
          exact ⟨(keepIfNonempty_eq_none _).mp hgh,
            (keepIfNonempty_eq_none _).mp htb, h⟩
    · rintro ⟨hg, ht, hu⟩
      rw [(keepIfNonempty_eq_none _).mpr hg, (keepIfNonempty_eq_none _).mpr ht,
        keepIfNonempty_fetchFromUnpkg, hu]
  · intro content
    rfl

/-- Closed instance of the C6 cascade, applying it to concrete
strategy outcomes for each conjunct. -/
theorem fetch_source_code_cascade_witness :
    fetchSourceCode (some "https://github.com/acme/lib")
      { github := some { files := [{ path := "src/a.ts", content := "x",
                                     size := 1 }],
                         strategy := "github", totalSize := 1 },
        tarball := none, unpkgProbe := fun _ => none } =
      some { files := [{ path := "src/a.ts", content := "x", size := 1 }],
             strategy := "github", totalSize := 1 } ∧
    fetchSourceCode none
      { github := none,
        tarball := some { files := [{ path := "lib/b.js", content := "yy",
                                      size := 2 }],
                          strategy := "tarball", totalSize := 2 },
        unpkgProbe := fun _ => none } =
      some { files := [{ path := "lib/b.js", content := "yy", size := 2 }],
             strategy := "tarball", totalSize := 2 } ∧
    fetchSourceCode none
      { github := none, tarball := none, unpkgProbe := fun _ => none } =
      none ∧
    fetchSourceCode none
      { github := none,
        tarball := some { files := [], strategy := "tarball", totalSize := 0 },
        unpkgProbe := fun p => if p = "/src/index.js" then some "abc" else none } =
      some { files := [{ path := "/src/index.js", content := "abc", size := 3 }],
             strategy := "unpkg", totalSize := 3 } := by
  refine ⟨?_, ?_, ?_, ?_⟩
  · exact fetch_source_code_cascade.1 "https://github.com/acme/lib" _ _ rfl
      (by decide)
  · exact fetch_source_code_cascade.2.1 none _ _ (by intro r h; cases h)
      rfl (by decide)
  · exact (fetch_source_code_cascade.2.2.2.1 none _).mpr
      ⟨(by intro r h; cases h), (by intro r h; cases h), rfl⟩
  · exact fetch_source_code_cascade.2.2.2.2 "abc"

/-- Every `SymbolMatch` built by `toSymbolMatch` has a snippet of at
most 160 code units, and the snippet is exactly the 160-unit
truncation of the untouched `implementation` field. -/
theorem toSymbolMatch_snippet (raw : RawEsSymbol) :
    (toSymbolMatch raw).snippet.length ≤ 160 ∧
    (toSymbolMatch raw).snippet =
      jsSlice0 ((toSymbolMatch raw).implementation.getD "") 160 := by
  constructor
  · show (ofChars ((chars (raw.implementation.getD "")).take 160)).length ≤ 160
    show ((chars (raw.implementation.getD "")).take 160).length ≤ 160
    rw [List.length_take]
    omega
  · rfl

/-- Both branches of the retrieval fallback produce symbol lists that
are images of `toSymbolMatch`. -/
theorem retrievedDocSymbols_map (hit : EsHit)
    (getResult : Except String ElasticDoc) (maxSnippets : Nat) :
    ∃ raws : List RawEsSymbol,
      (retrievedDocSymbols hit getResult maxSnippets).2 =
        raws.map toSymbolMatch := by
  simp only [retrievedDocSymbols]
  by_cases hc : (hit.innerSymbols.map toSymbolMatch).length = 0
  · rw [if_pos hc]
    match getResult with
    | Except.ok doc => exact ⟨_, rfl⟩
    | Except.error e => exact ⟨hit.innerSymbols, rfl⟩
  · rw [if_neg hc]
    exact ⟨hit.innerSymbols, rfl⟩

/-- C9: every `SymbolMatch` produced by context retrieval — through
the inner-hits path or the document-fallback path, in both
`findRelevantCode` and `fetchSymbolContext` — has a snippet of at most
160 code units, equal to the truncation of its untruncated
`implementation` field. -/
theorem retrieval_snippet_truncation :
    (∀ (es : EsEnv) (maxSnippets : Nat) (r : Retrieved) (m : SymbolMatch),
      findRelevantCode es maxSnippets = Except.ok (some r) →
      m ∈ r.symbols →
      m.snippet.length ≤ 160 ∧
        m.snippet = jsSlice0 (m.implementation.getD "") 160) ∧
    (∀ (es : EsEnv) (maxSnippets : Nat) (l : List SymbolMatch)
        (m : SymbolMatch),
      fetchSymbolContext es maxSnippets = Except.ok l →
      m ∈ l →
      m.snippet.length ≤ 160 ∧
        m.snippet = jsSlice0 (m.implementation.getD "") 160) := by
  constructor
  · intro es maxSnippets r m hfind hmem
    obtain ⟨raws, hraws⟩ : ∃ raws : List RawEsSymbol,
        r.symbols = raws.map toSymbolMatch := by
      unfold findRelevantCode at hfind
      match hs : es.searchResult with
      | Except.error e => rw [hs] at hfind; cases hfind
      | Except.ok none => rw [hs] at hfind; simp at hfind
      | Except.ok (some hit) =>
        rw [hs] at hfind
        simp only [Except.ok.injEq, Option.some.injEq] at hfind
        obtain ⟨raws, hr⟩ := retrievedDocSymbols_map hit es.getResult maxSnippets
        exact ⟨raws, by rw [← hfind]; exact hr⟩
    rw [hraws] at hmem
    rcases List.mem_map.mp hmem with ⟨raw, _, hm⟩
    rw [← hm]
    exact toSymbolMatch_snippet raw
  · intro es maxSnippets l m hfetch hmem
    obtain ⟨raws, hraws⟩ : ∃ raws : List RawEsSymbol,
        l = raws.map toSymbolMatch := by
      match hs : es.searchResult with
      | Except.error e =>
        simp only [fetchSymbolContext, hs] at hfetch
        cases hfetch
      | Except.ok hitOpt =>
        simp only [fetchSymbolContext, hs] at hfetch
        by_cases hlen : (symbolContextHits hitOpt).length > 0
        · rw [if_pos hlen] at hfetch
          simp only [Except.ok.injEq] at hfetch
          exact ⟨symbolContextHits hitOpt, hfetch.symm⟩
        · rw [if_neg hlen] at hfetch
          match hg : es.getResult with
          | Except.ok doc =>
            rw [hg] at hfetch
            simp only [Except.ok.injEq] at hfetch
            exact ⟨doc.symbols.take maxSnippets, hfetch.symm⟩
          | Except.error e2 =>
            rw [hg] at hfetch
            simp only [Except.ok.injEq] at hfetch
            exact ⟨[], hfetch.symm⟩
    rw [hraws] at hmem
    rcases List.mem_map.mp hmem with ⟨raw, _, hm⟩
    rw [← hm]
    exact toSymbolMatch_snippet raw

/-- A stored symbol with a 200-unit implementation. -/
def longImplSymbol : RawEsSymbol :=
  { name := "run", kind := "function", file_path := "src/run.ts",
    implementation := some (ofChars (List.replicate 200 'z')),
    is_exported := true, relevance_score := some 12, jsdoc := none,
    signature := some "function run(): void" }

/-- The package document of the truncation fixture. -/
def truncationDoc : ElasticDoc :=
  { name := "pkg", version := "1.0.0", description := none,
    readme_content := TextField.nullVal, code_examples := TextField.nullVal,
    exports := none, symbols := [] }

/-- Retrieval oracle returning one inner hit with the long
implementation, with a failing get-by-id. -/
def truncationEnv : EsEnv :=
  { searchResult := Except.ok (some
      { id := "pkg@1.0.0", source := truncationDoc,
        innerSymbols := [longImplSymbol] }),
    getResult := Except.error "get failed" }

/-- Closed instance of C9: the truncation bound applied to a concrete
retrieval whose stored implementation has 200 units. -/
theorem retrieval_snippet_truncation_witness :
    ((toSymbolMatch longImplSymbol).implementation.getD "").length = 200 ∧
    (toSymbolMatch longImplSymbol).snippet.length ≤ 160 ∧
    (toSymbolMatch longImplSymbol).snippet =
      jsSlice0 ((toSymbolMatch longImplSymbol).implementation.getD "") 160 := by
  refine ⟨?_, ?_⟩
  · show (ofChars (List.replicate 200 'z')).length = 200
    show (List.replicate 200 'z').length = 200
    rw [List.length_replicate]
  · exact retrieval_snippet_truncation.1 truncationEnv 3
      { source := truncationDoc, symbols := [toSymbolMatch longImplSymbol],
        readme := "", codeExamples := "", exports := [] }
      (toSymbolMatch longImplSymbol) rfl (List.mem_singleton_self _)

/-- C2 counterexample: a thrown index query is not caught by the
retrieval cascade — both retrieval entry points propagate the
exception instead of returning an empty symbol-match list. -/
theorem retrieval_query_failure_propagates :
    findRelevantCode
      { searchResult := Except.error "search failed",
        getResult := Except.error "get failed" } 3 =
      Except.error "search failed" ∧
    fetchSymbolContext
      { searchResult := Except.error "search failed",
        getResult := Except.error "get failed" } 3 =
      Except.error "search failed" :=
  ⟨rfl, rfl⟩

/-- C2 amended: only the fallback document fetch is guarded — its
failure degrades to an empty symbol list (an empty list from
`fetchSymbolContext`, a hit with no symbols from `findRelevantCode`)
— while a failure of the initial index query propagates to the
caller uncaught. -/
theorem retrieval_degradation_amended :
    (∀ (es : EsEnv) (hit : EsHit) (maxSnippets : Nat) (e : String),
      es.searchResult = Except.ok (some hit) →
      hit.innerSymbols = [] →
      es.getResult = Except.error e →
      (∃ r, findRelevantCode es maxSnippets = Except.ok (some r) ∧
        r.symbols = [] ∧ r.source = hit.source) ∧
      fetchSymbolContext es maxSnippets = Except.ok []) ∧
    (∀ (es : EsEnv) (maxSnippets : Nat) (e : String),
      es.searchResult = Except.error e →
      findRelevantCode es maxSnippets = Except.error e ∧
      fetchSymbolContext es maxSnippets = Except.error e) := by
  constructor
  · intro es hit maxSnippets e hs hinner hg
    have hX : retrievedDocSymbols hit es.getResult maxSnippets =
        (hit.source, []) := by
      simp [retrievedDocSymbols, hinner, hg]
    constructor
    · refine ⟨⟨hit.source, [], extractTextField hit.source.readme_content,
        extractTextField hit.source.code_examples,
        hit.source.exports.getD []⟩, ?_, rfl, rfl⟩
      simp only [findRelevantCode, hs, hX]
    · simp only [fetchSymbolContext, hs]
      rw [if_neg (by simp [symbolContextHits, hinner]), hg]
  · intro es maxSnippets e hs
    constructor
    · simp only [findRelevantCode, hs]
    · simp only [fetchSymbolContext, hs]

/-- A search hit with no inner symbol hits. -/
def degradedHit : EsHit :=
  { id := "pkg@1.0.0", source := truncationDoc, innerSymbols := [] }

/-- Retrieval oracle whose fallback document fetch fails. -/
def degradedEnv : EsEnv :=
  { searchResult := Except.ok (some degradedHit),
    getResult := Except.error "boom" }

/-- Closed instance of the amended C2, applying both halves at
concrete oracles. -/
theorem retrieval_degradation_amended_witness :
    (∃ r, findRelevantCode degradedEnv 3 = Except.ok (some r) ∧
      r.symbols = [] ∧ r.source = degradedHit.source) ∧
    fetchSymbolContext degradedEnv 3 = Except.ok [] ∧
    findRelevantCode
      { searchResult := Except.error "down",
        getResult := Except.ok truncationDoc } 3 = Except.error "down" := by
  obtain ⟨h1, h2⟩ :=
    retrieval_degradation_amended.1 degradedEnv degradedHit 3 "boom" rfl rfl rfl
  have h3 := (retrieval_degradation_amended.2
    { searchResult := Except.error "down",
      getResult := Except.ok truncationDoc } 3 "down" rfl).1
  exact ⟨h1, h2, h3⟩

/-- Ingestion oracle whose package-manifest fetch fails and whose
other interactions are quiet: README and declaration file empty, no
source strategy yields files, and the index write succeeds. -/
def metadataFailOracle : IngestOracle :=
  { fetch := { pkgJsonRes := Except.error "Failed to fetch package.json: 500",
               readmeRes := Except.ok "", dtsRes := Except.ok "" },
    strategies := { github := none, tarball := none,
                    unpkgProbe := fun _ => none },
    astOf := fun _ _ => TsNode.mk TsNodeInfo.otherNode [],
    indexResult := Except.ok () }

/-- C5 counterexample: when the registry metadata fetch fails,
`indexPackage` does not raise — `fetchPackage` settles the three
requests independently and substitutes the placeholder manifest
`name, version := "unknown"`, so ingestion proceeds and indexes a
document for the placeholder version. -/
theorem metadata_failure_not_fatal :
    indexPackage "left-pad" metadataFailOracle =
      Except.ok
        { name := "left-pad", version := "unknown", description := "",
          keywords := [], readme_content := "", repository_url := none,
          source_strategy := "none", exports := [], symbols := [],
          source_code_content := "", code_examples := "",
          total_symbols := 0, total_source_files := 0,
          total_source_size := 0 } := rfl

/-- The batch counters of `indexPackages` account for every package:
no failure aborts the fold. -/
theorem indexPackages_counts (packages : List (String × IngestOracle)) :
    (indexPackages packages).1 + (indexPackages packages).2 =
      packages.length := by
  suffices h : ∀ (a b : Nat),
      (packages.foldl
        (fun counts pkg =>
          match indexPackage pkg.1 pkg.2 with
          | Except.ok _ => (counts.1 + 1, counts.2)
          | Except.error _ => (counts.1, counts.2 + 1)) (a, b)).1 +
      (packages.foldl
        (fun counts pkg =>
          match indexPackage pkg.1 pkg.2 with
          | Except.ok _ => (counts.1 + 1, counts.2)
          | Except.error _ => (counts.1, counts.2 + 1)) (a, b)).2 =
      a + b + packages.length by
    have := h 0 0
    simpa [indexPackages] using this
  induction packages with
  | nil => intro a b; simp
  | cons p rest ih =>
    intro a b
    simp only [List.foldl_cons, List.length_cons]
    cases hip : indexPackage p.1 p.2 with
    | ok d =>
      simp only [hip]
      have := ih (a + 1) b
      omega
    | error err =>
      simp only [hip]
      have := ih a (b + 1)
      omega

/-- C5 amended: a failing metadata fetch is swallowed inside
`fetchPackage` (placeholder manifest, ingestion proceeds and succeeds
when the index write succeeds), and `indexPackages` isolates
per-package failures, counting every package as either successful or
failed without aborting the batch. -/
theorem metadata_failure_amended :
    (∀ (pkg : String) (oracle : IngestOracle) (e : String),
      oracle.fetch.pkgJsonRes = Except.error e →
      oracle.indexResult = Except.ok () →
      ∃ doc, indexPackage pkg oracle = Except.ok doc ∧
        doc.name = pkg ∧ doc.version = "unknown") ∧
    (∀ packages : List (String × IngestOracle),
      (indexPackages packages).1 + (indexPackages packages).2 =
        packages.length) := by
  constructor
  · intro pkg oracle e hmeta hidx
    simp only [indexPackage, hidx]
    refine ⟨_, rfl, ?_, ?_⟩
    · show (fetchPackage pkg oracle.fetch).pkgJson.name = pkg
      simp [fetchPackage, hmeta]
    · show (fetchPackage pkg oracle.fetch).pkgJson.version = "unknown"
      simp [fetchPackage, hmeta]
  · exact indexPackages_counts

/-- Closed instance of the amended C5: the metadata-failure oracle
yields a successful ingestion, and a two-package batch with one
failing index write is fully accounted for. -/
theorem metadata_failure_amended_witness :
    (∃ doc, indexPackage "left-pad" metadataFailOracle = Except.ok doc ∧
      doc.name = "left-pad" ∧ doc.version = "unknown") ∧
    (indexPackages
      [("left-pad", metadataFailOracle),
       ("is-even", { metadataFailOracle with
          indexResult := Except.error "503 write rejected" })]).1 +
    (indexPackages
      [("left-pad", metadataFailOracle),
       ("is-even", { metadataFailOracle with
          indexResult := Except.error "503 write rejected" })]).2 = 2 := by
  constructor
  · exact metadata_failure_amended.1 "left-pad" metadataFailOracle
      "Failed to fetch package.json: 500" rfl rfl
  · exact metadata_failure_amended.2
      [("left-pad", metadataFailOracle),
       ("is-even", { metadataFailOracle with
          indexResult := Except.error "503 write rejected" })]

/-- One non-retryable failure ends the attempt loop on a model after a
single call, recording the thrown error. -/
theorem runAttempts_break (b : Nat → GenOutcome) (e : Thrown)
    (fuel i : Nat) (hfuel : 0 < fuel) (hb : b i = GenOutcome.err e)
    (hr : isRetryableGeminiError e = false) :
    runAttempts b fuel i = (none, [i], some e) := by
  match fuel, hfuel with
  | f + 1, _ => simp [runAttempts, hb, hr]

/-- With at least one attempt available, the first call on a model is
made at the requested attempt number. -/
theorem runAttempts_first (b : Nat → GenOutcome) (fuel i : Nat)
    (hfuel : 0 < fuel) :
    ∃ r cs le, runAttempts b fuel i = (r, i :: cs, le) := by
  match fuel, hfuel with
  | f + 1, _ =>
    match hb : b i with
    | GenOutcome.ok t => exact ⟨some t, [], none, by simp [runAttempts, hb]⟩
    | GenOutcome.err e =>
      by_cases hr : isRetryableGeminiError e = true
      · match hrec : runAttempts b f (i + 1) with
        | (r, cs, le) =>
          exact ⟨r, cs, some (le.getD e), by simp [runAttempts, hb, hr, hrec]⟩
      · exact ⟨none, [], some e, by simp [runAttempts, hb, hr]⟩

/-- A model that fails retryably on the first `m` attempts and
succeeds on attempt `m` is called exactly `m + 1` times, at
consecutive attempt numbers, and yields the successful text. -/
theorem runAttempts_retry_ok (b : Nat → GenOutcome) (t : String) :
    ∀ (m i fuel : Nat), m < fuel →
    (∀ j, j < m → ∃ e, b (i + j) = GenOutcome.err e ∧
      isRetryableGeminiError e = true) →
    b (i + m) = GenOutcome.ok t →
    ∃ le, runAttempts b fuel i = (some t, List.range' i (m + 1), le) := by
  intro m
  induction m with
  | zero =>
    intro i fuel hfuel herr hok
    match fuel, hfuel with
    | f + 1, _ =>
      rw [Nat.add_zero] at hok
      refine ⟨none, ?_⟩
      simp only [runAttempts, hok]
      rfl
  | succ m ih =>
    intro i fuel hfuel herr hok
    match fuel, hfuel with
    | f + 1, hf =>
      obtain ⟨e0, he0, hr0⟩ := herr 0 (Nat.succ_pos m)
      rw [Nat.add_zero] at he0
      have hmf : m < f := by omega
      have herr' : ∀ j, j < m → ∃ e, b ((i + 1) + j) = GenOutcome.err e ∧
          isRetryableGeminiError e = true := by
        intro j hj
        have h := herr (j + 1) (by omega)
        rw [show i + (j + 1) = (i + 1) + j by omega] at h
        exact h
      have hok' : b ((i + 1) + m) = GenOutcome.ok t := by
        rw [show (i + 1) + m = i + (m + 1) by omega]
        exact hok
      obtain ⟨le, hrec⟩ := ih (i + 1) f hmf herr' hok'
      refine ⟨some (le.getD e0), ?_⟩
      simp only [runAttempts, he0, hr0, if_true, hrec]
      rfl

/-- A model whose attempt loop succeeds ends the model cascade with
the successful text and exactly its own calls in the trace. -/
theorem genLoopAux_head_ok (maxAttempts : Nat) (b : Nat → GenOutcome)
    (rest : List (Nat → GenOutcome)) (m : Nat) (lastErr : Option Thrown)
    (t : String) (cs : List Nat) (le : Option Thrown)
    (hrun : runAttempts b maxAttempts 0 = (some t, cs, le)) :
    genLoopAux maxAttempts (b :: rest) m lastErr =
      (some t, cs.map (fun attempt => (m, attempt)), lastErr) := by
  simp only [genLoopAux, hrun]

/-- A model whose attempt loop fails hands over to the models after
it: the trace is its own calls followed by the trace of the remaining
cascade, run with the model index advanced and the last error
threaded. -/
theorem genLoopAux_head_fail (maxAttempts : Nat) (b : Nat → GenOutcome)
    (rest : List (Nat → GenOutcome)) (m : Nat)
    (lastErr lastErrNext : Option Thrown) (cs : List Nat)
    (le : Option Thrown)
    (hrun : runAttempts b maxAttempts 0 = (none, cs, le))
    (hle : (match le with
            | some e2 => some e2
            | none => lastErr) = lastErrNext) :
    genLoopAux maxAttempts (b :: rest) m lastErr =
      ((genLoopAux maxAttempts rest (m + 1) lastErrNext).1,
        cs.map (fun attempt => (m, attempt)) ++
          (genLoopAux maxAttempts rest (m + 1) lastErrNext).2.1,
        (genLoopAux maxAttempts rest (m + 1) lastErrNext).2.2) := by
  subst hle
  cases le with
  | some e2 => simp only [genLoopAux, hrun]
  | none => simp only [genLoopAux, hrun]

/-- With at least one attempt available, the first trace entry of a
non-empty cascade is the first attempt on its head model. -/
theorem genLoopAux_trace_head (maxAttempts : Nat) (hA : 0 < maxAttempts)
    (b : Nat → GenOutcome) (rest : List (Nat → GenOutcome)) (m : Nat)
    (lastErr : Option Thrown) :
    ∃ r tr le, genLoopAux maxAttempts (b :: rest) m lastErr =
      (r, (m, 0) :: tr, le) := by
  obtain ⟨r0, cs0, le0, h0⟩ := runAttempts_first b maxAttempts 0 hA
  cases r0 with
  | some t =>
    refine ⟨some t, cs0.map (fun attempt => (m, attempt)), lastErr, ?_⟩
    rw [genLoopAux_head_ok maxAttempts b rest m lastErr t (0 :: cs0) le0 h0]
    rfl
  | none =>
    cases le0 with
    | some e2 =>
      refine ⟨(genLoopAux maxAttempts rest (m + 1) (some e2)).1,
        cs0.map (fun attempt => (m, attempt)) ++
          (genLoopAux maxAttempts rest (m + 1) (some e2)).2.1,
        (genLoopAux maxAttempts rest (m + 1) (some e2)).2.2, ?_⟩
      rw [genLoopAux_head_fail maxAttempts b rest m lastErr (some e2)
        (0 :: cs0) (some e2) h0 rfl]
      rfl
    | none =>
      refine ⟨(genLoopAux maxAttempts rest (m + 1) lastErr).1,
        cs0.map (fun attempt => (m, attempt)) ++
          (genLoopAux maxAttempts rest (m + 1) lastErr).2.1,
        (genLoopAux maxAttempts rest (m + 1) lastErr).2.2, ?_⟩
      rw [genLoopAux_head_fail maxAttempts b rest m lastErr lastErr
        (0 :: cs0) none h0 rfl]
      rfl

/-- When the primary model throws a non-retryable error on its first
attempt, the cascade makes exactly one call to it and the very next
call in the trace is the first attempt on the fallback model. -/
theorem genLoopAux_fallback (maxAttempts : Nat) (hA : 0 < maxAttempts)
    (b bFallback : Nat → GenOutcome) (rest : List (Nat → GenOutcome))
    (e : Thrown) (hb : b 0 = GenOutcome.err e)
    (hr : isRetryableGeminiError e = false) :
    ∃ r tr le, genLoopAux maxAttempts (b :: bFallback :: rest) 0 none =
      (r, (0, 0) :: (1, 0) :: tr, le) := by
  have h1 := runAttempts_break b e maxAttempts 0 hA hb hr
  have houter := genLoopAux_head_fail maxAttempts b (bFallback :: rest) 0
    none (some e) [0] (some e) h1 rfl
  obtain ⟨r2, tr2, le2, hinner⟩ :=
    genLoopAux_trace_head maxAttempts hA bFallback rest (0 + 1) (some e)
  refine ⟨r2, tr2, le2, ?_⟩
  rw [houter, hinner]
  rfl

/-- When at least one model is configured, retrieval settles, the
grounding gate passes, and the model cascade succeeds, `generateAnswer`
resolves with the assembled response and the cascade trace. -/
theorem generateAnswer_success (env : AnswerEnv) (payload : AnswerRequest)
    (ctx : Option Retrieved) (t : String) (trace : List (Nat × Nat))
    (x : Option Thrown)
    (hne : env.models ≠ [])
    (hctx : findRelevantCode env.es (effectiveMaxSnippets payload) =
      Except.ok ctx)
    (hgo : contextHasSymbols ctx = true ∨ env.allowUngroundedFallback = true)
    (hgen : genLoopAux (max 1 env.maxRetries) env.models 0 none =
      (some t, trace, x)) :
    generateAnswer env payload = Except.ok (AnswerOutcome.ok
      { intent := payload.intent, packageName := payload.packageName,
        searchQuery := effectiveQuery payload, code := jsTrim t,
        context :=
          match (if contextHasSymbols ctx then ctx else none) with
          | some ctx2 => ctx2.symbols.map toCitation
          | none => [],
        grounded := contextHasSymbols ctx,
        note := if contextHasSymbols ctx then none
          else some ("Generated without grounded context. " ++
            "Verify against official docs before use.") }, trace) := by
  have hlen : ¬(env.models.length = 0) := by
    simpa [List.length_eq_zero] using hne
  have hcond : ¬((!contextHasSymbols ctx && !env.allowUngroundedFallback)
      = true) := by
    rcases hgo with h | h <;> simp [h]
  simp only [generateAnswer, hctx]
  rw [if_neg hlen, if_neg hcond]
  simp only [hgen]

/-- When the model cascade exhausts every model and attempt,
`generateAnswer` resolves with the last error message and the full
trace. -/
theorem generateAnswer_exhausted (env : AnswerEnv) (payload : AnswerRequest)
    (ctx : Option Retrieved) (trace : List (Nat × Nat))
    (lastErr : Option Thrown)
    (hne : env.models ≠ [])
    (hctx : findRelevantCode env.es (effectiveMaxSnippets payload) =
      Except.ok ctx)
    (hgo : contextHasSymbols ctx = true ∨ env.allowUngroundedFallback = true)
    (hgen : genLoopAux (max 1 env.maxRetries) env.models 0 none =
      (none, trace, lastErr)) :
    generateAnswer env payload =
      Except.ok (AnswerOutcome.err (thrownMessage lastErr), trace) := by
  have hlen : ¬(env.models.length = 0) := by
    simpa [List.length_eq_zero] using hne
  have hcond : ¬((!contextHasSymbols ctx && !env.allowUngroundedFallback)
      = true) := by
    rcases hgo with h | h <;> simp [h]
  simp only [generateAnswer, hctx]
  rw [if_neg hlen, if_neg hcond]
  simp only [hgen]

/-- When retrieval yields no grounded context and ungrounded fallback
is disabled, `generateAnswer` rejects with the descriptive error and
makes no model call. -/
theorem generateAnswer_reject (env : AnswerEnv) (payload : AnswerRequest)
    (ctx : Option Retrieved)
    (hne : env.models ≠ [])
    (hctx : findRelevantCode env.es (effectiveMaxSnippets payload) =
      Except.ok ctx)
    (hg : contextHasSymbols ctx = false)
    (hallow : env.allowUngroundedFallback = false) :
    generateAnswer env payload = Except.ok (AnswerOutcome.err
      ("No relevant symbols found for " ++ payload.packageName ++
        " with query \"" ++ effectiveQuery payload ++ "\""), []) := by
  have hlen : ¬(env.models.length = 0) := by
    simpa [List.length_eq_zero] using hne
  simp only [generateAnswer, hctx]
  rw [if_neg hlen, if_pos (by simp [hg, hallow])]

/-- C1: when context retrieval finds at least one symbol match and a
model call succeeds, the response is grounded with a non-empty
citation list (one citation per retrieved symbol); when retrieval
finds no symbol match and ungrounded fallback is disabled, the call
resolves with an error naming the package and the effective search
query, and the model-call trace is empty. -/
theorem answer_grounded_contract :
    (∀ (env : AnswerEnv) (payload : AnswerRequest) (r : Retrieved)
        (t : String) (trace : List (Nat × Nat)) (x : Option Thrown),
      env.models ≠ [] →
      findRelevantCode env.es (effectiveMaxSnippets payload) =
        Except.ok (some r) →
      r.symbols ≠ [] →
      genLoopAux (max 1 env.maxRetries) env.models 0 none =
        (some t, trace, x) →
      ∃ resp, generateAnswer env payload =
          Except.ok (AnswerOutcome.ok resp, trace) ∧
        resp.grounded = true ∧
        resp.context = r.symbols.map toCitation ∧
        1 ≤ resp.context.length) ∧
    (∀ (env : AnswerEnv) (payload : AnswerRequest) (ctx : Option Retrieved),
      env.models ≠ [] →
      findRelevantCode env.es (effectiveMaxSnippets payload) =
        Except.ok ctx →
      (∀ r, ctx = some r → r.symbols = []) →
      env.allowUngroundedFallback = false →
      generateAnswer env payload = Except.ok (AnswerOutcome.err
        ("No relevant symbols found for " ++ payload.packageName ++
          " with query \"" ++ effectiveQuery payload ++ "\""), [])) := by
  constructor
  · intro env payload r t trace x hne hctx hsym hgen
    have hpos : 0 < r.symbols.length := List.length_pos.mpr hsym
    have hgrounded : contextHasSymbols (some r) = true := by
      simp only [contextHasSymbols, decide_eq_true_eq]
      omega
    refine ⟨_, generateAnswer_success env payload (some r) t trace x hne hctx
      (Or.inl hgrounded) hgen, ?_, ?_, ?_⟩
    · show contextHasSymbols (some r) = true
      exact hgrounded
    · show (match (if contextHasSymbols (some r) then some r else none) with
        | some ctx2 => ctx2.symbols.map toCitation
        | none => []) = r.symbols.map toCitation
      rw [hgrounded]
      rfl
    · show 1 ≤ (match (if contextHasSymbols (some r) then some r else none)
          with
        | some ctx2 => ctx2.symbols.map toCitation
        | none => []).length
      rw [hgrounded]
      show 1 ≤ (r.symbols.map toCitation).length
      rw [List.length_map]
      omega
  · intro env payload ctx hne hctx hz hallow
    have hg : contextHasSymbols ctx = false := by
      cases ctx with
      | none => rfl
      | some r => simp [contextHasSymbols, hz r rfl]
    exact generateAnswer_reject env payload ctx hne hctx hg hallow

/-- C3: a model that throws a retryable error on the first
`maxRetries - 1` attempts and then succeeds yields a success after
exactly `maxRetries` attempts on that same (first) model, with zero
calls to any later model. -/
theorem retry_boundary (env : AnswerEnv) (payload : AnswerRequest)
    (b : Nat → GenOutcome) (rest : List (Nat → GenOutcome))
    (ctx : Option Retrieved) (t : String)
    (hm : env.models = b :: rest)
    (hmr : 1 ≤ env.maxRetries)
    (hctx : findRelevantCode env.es (effectiveMaxSnippets payload) =
      Except.ok ctx)
    (hgo : contextHasSymbols ctx = true ∨ env.allowUngroundedFallback = true)
    (herr : ∀ i, i < env.maxRetries - 1 → ∃ e, b i = GenOutcome.err e ∧
      isRetryableGeminiError e = true)
    (hok : b (env.maxRetries - 1) = GenOutcome.ok t) :
    ∃ resp, generateAnswer env payload = Except.ok (AnswerOutcome.ok resp,
        (List.range env.maxRetries).map fun i => (0, i)) ∧
      resp.code = jsTrim t := by
  have hA : max 1 env.maxRetries = env.maxRetries := Nat.max_eq_right hmr
  have herr' : ∀ j, j < env.maxRetries - 1 → ∃ e,
      b (0 + j) = GenOutcome.err e ∧ isRetryableGeminiError e = true := by
    intro j hj
    simpa using herr j hj
  have hok' : b (0 + (env.maxRetries - 1)) = GenOutcome.ok t := by
    simpa using hok
  obtain ⟨le, hrun⟩ := runAttempts_retry_ok b t (env.maxRetries - 1) 0
    env.maxRetries (by omega) herr' hok'
  have hrange : List.range' 0 ((env.maxRetries - 1) + 1) =
      List.range env.maxRetries := by
    rw [List.range_eq_range']
    congr 1
    omega
  rw [hrange] at hrun
  have hgen : genLoopAux (max 1 env.maxRetries) env.models 0 none =
      (some t, (List.range env.maxRetries).map fun i => (0, i), none) := by
    rw [hm, hA]
    exact genLoopAux_head_ok env.maxRetries b rest 0 none t
      (List.range env.maxRetries) le hrun
  refine ⟨_, generateAnswer_success env payload ctx t _ none
    (by rw [hm]; simp) hctx hgo hgen, ?_⟩
  rfl

/-- C4: a primary model that always throws a non-retryable error is
called exactly once, and the very next model call in the trace is the
first attempt on the fallback model. -/
theorem fallback_boundary (env : AnswerEnv) (payload : AnswerRequest)
    (b bFallback : Nat → GenOutcome) (rest : List (Nat → GenOutcome))
    (ctx : Option Retrieved)
    (hm : env.models = b :: bFallback :: rest)
    (hctx : findRelevantCode env.es (effectiveMaxSnippets payload) =
      Except.ok ctx)
    (hgo : contextHasSymbols ctx = true ∨ env.allowUngroundedFallback = true)
    (hb : ∀ i, ∃ e, b i = GenOutcome.err e ∧
      isRetryableGeminiError e = false) :
    ∃ outcome tr, generateAnswer env payload =
      Except.ok (outcome, (0, 0) :: (1, 0) :: tr) := by
  obtain ⟨e, he, hr⟩ := hb 0
  have hA : 0 < max 1 env.maxRetries :=
    lt_of_lt_of_le Nat.one_pos (le_max_left 1 env.maxRetries)
  obtain ⟨r, tr, le, hgen⟩ := genLoopAux_fallback (max 1 env.maxRetries) hA
    b bFallback rest e he hr
  have hgen' : genLoopAux (max 1 env.maxRetries) env.models 0 none =
      (r, (0, 0) :: (1, 0) :: tr, le) := by
    rw [hm]
    exact hgen
  have hne : env.models ≠ [] := by rw [hm]; simp
  cases r with
  | some t =>
    exact ⟨_, tr,
      generateAnswer_success env payload ctx t _ le hne hctx hgo hgen'⟩
  | none =>
    exact ⟨AnswerOutcome.err (thrownMessage le), tr,
      generateAnswer_exhausted env payload ctx _ le hne hctx hgo hgen'⟩

/-- A model oracle that always succeeds. -/
def okModel : Nat → GenOutcome :=
  fun _ => GenOutcome.ok "const client = createClient();"

/-- A fallback model oracle that always succeeds. -/
def fallbackModel : Nat → GenOutcome :=
  fun _ => GenOutcome.ok "fallback answer"

/-- A model oracle that throws a retryable error on its first two
attempts and then succeeds. -/
def retryModel : Nat → GenOutcome :=
  fun i => if i < 2 then GenOutcome.err (Thrown.errObj "503 Service Unavailable")
    else GenOutcome.ok "works"

/-- A model oracle that always throws a non-retryable error. -/
def badModel : Nat → GenOutcome :=
  fun _ => GenOutcome.err (Thrown.errObj "400 bad request")

/-- The answer request of scenario D. -/
def questionPayload : AnswerRequest :=
  { intent := "create a schema and parse data", packageName := "zod",
    searchQuery := none, maxSnippets := none }

/-- The retrieval result `truncationEnv` produces. -/
def groundedRetrieved : Retrieved :=
  { source := truncationDoc, symbols := [toSymbolMatch longImplSymbol],
    readme := "", codeExamples := "", exports := [] }

/-- The retrieval result `degradedEnv` produces (no symbols). -/
def degradedRetrieved : Retrieved :=
  { source := truncationDoc, symbols := [], readme := "",
    codeExamples := "", exports := [] }

/-- Grounded service environment with one always-succeeding model. -/
def groundedAnswerEnv : AnswerEnv :=
  { es := truncationEnv, models := [okModel], maxRetries := 1,
    allowUngroundedFallback := false }

/-- Service environment whose retrieval yields no symbols and whose
ungrounded fallback is disabled. -/
def rejectAnswerEnv : AnswerEnv :=
  { es := degradedEnv, models := [okModel], maxRetries := 1,
    allowUngroundedFallback := false }

/-- Closed instance of C1: a grounded request produces a grounded
response with one citation after one model call, and a groundless
request is rejected with the descriptive error and no model call. -/
theorem answer_grounded_contract_witness :
    (∃ resp, generateAnswer groundedAnswerEnv questionPayload =
        Except.ok (AnswerOutcome.ok resp, [(0, 0)]) ∧
      resp.grounded = true ∧
      resp.context = [toCitation (toSymbolMatch longImplSymbol)] ∧
      1 ≤ resp.context.length) ∧
    generateAnswer rejectAnswerEnv questionPayload =
      Except.ok (AnswerOutcome.err
        "No relevant symbols found for zod with query \"create a schema and parse data\"",
        []) := by
  constructor
  · obtain ⟨resp, h1, h2, h3, h4⟩ := answer_grounded_contract.1
      groundedAnswerEnv questionPayload groundedRetrieved
      "const client = createClient();" [(0, 0)] none
      (by simp [groundedAnswerEnv]) rfl (by simp [groundedRetrieved]) rfl
    refine ⟨resp, h1, h2, ?_, h4⟩
    rw [h3]
    rfl
  · have h := answer_grounded_contract.2 rejectAnswerEnv questionPayload
      (some degradedRetrieved) (by simp [rejectAnswerEnv]) rfl
      (by intro r hr; injection hr with hr'; rw [← hr']; rfl) rfl
    exact h

/-- Service environment whose primary model fails retryably twice,
with `maxRetries = 3` and a fallback model behind it. -/
def retryEnv : AnswerEnv :=
  { es := truncationEnv, models := [retryModel, fallbackModel],
    maxRetries := 3, allowUngroundedFallback := false }

/-- Closed instance of C3: with `maxRetries = 3`, two retryable
failures then a success yield exactly three calls on the primary model
and none on the fallback. -/
theorem retry_boundary_witness :
    ∃ resp, generateAnswer retryEnv questionPayload =
        Except.ok (AnswerOutcome.ok resp, [(0, 0), (0, 1), (0, 2)]) ∧
      resp.code = "works" := by
  obtain ⟨resp, h1, h2⟩ := retry_boundary retryEnv questionPayload retryModel
    [fallbackModel] (some groundedRetrieved) "works" rfl (by decide)
    rfl (Or.inl (by decide))
    (by intro i hi
        have hi2 : i < 2 := by simpa [retryEnv] using hi
        refine ⟨Thrown.errObj "503 Service Unavailable", ?_, by decide⟩
        simp only [retryModel]
        rw [if_pos hi2])
    rfl
  rw [show (List.range retryEnv.maxRetries).map (fun i => ((0 : Nat), i)) =
    [(0, 0), (0, 1), (0, 2)] from rfl] at h1
  refine ⟨resp, h1, ?_⟩
  rw [h2]
  rfl

/-- Service environment whose primary model always fails
non-retryably, with a fallback model behind it. -/
def fallbackEnv : AnswerEnv :=
  { es := truncationEnv, models := [badModel, fallbackModel],
    maxRetries := 3, allowUngroundedFallback := false }

/-- Closed instance of C4: one call to the failing primary model, then
immediately the first attempt on the fallback model. -/
theorem fallback_boundary_witness :
    ∃ outcome tr, generateAnswer fallbackEnv questionPayload =
      Except.ok (outcome, (0, 0) :: (1, 0) :: tr) :=
  fallback_boundary fallbackEnv questionPayload badModel fallbackModel
    [] (some groundedRetrieved) rfl rfl (Or.inl (by decide))
    (fun _ => ⟨Thrown.errObj "400 bad request", rfl, by decide⟩)
